import Mathlib

/-!
# Remote calculator: request handling and wire format

A shallow embedding of the calculator protocol implemented by
`calc_common.h`, `calc_logic.c`, `coi_server.c` (TCP server),
`calc_udp_server.c` (UDP server), `coi_client.c` (TCP client) and
`calc_udp_client.c` (UDP client), together with the properties of the
request handler, the wire records, the two serving loops and the menu loops
of the clients.

Conventions of the embedding:

* a C `double` is its 64-bit IEEE-754 binary64 pattern (`Double.bits`); the
  comparison `x == 0.0` is the IEEE comparison on patterns, so it holds for
  `+0.0` and `-0.0` and fails for every NaN;
* the four hardware operations `+ - * /` on doubles are the fields of an
  `FPU`; every property is stated for an arbitrary `FPU`, and `ieee754` is a
  concrete round-to-nearest-even unit used to evaluate examples;
* `int` and the enum `OperationType` are 4 bytes wide and are represented by
  the integer they denote;
* the effects of a loop iteration (messages printed, calls into the arithmetic
  unit, records handed to `send`/`sendto`) are collected in a list of `Event`s.
-/

namespace Calc

/-! ## Doubles -/

/-- A C `double`, given by its IEEE-754 binary64 bit pattern. -/
structure Double where
  bits : Nat
  deriving DecidableEq, Repr

namespace Double

/-- The pattern fits in 64 bits. -/
def WF (x : Double) : Prop := x.bits < 2 ^ 64

instance (x : Double) : Decidable x.WF := by unfold WF; infer_instance

/-- The 11-bit biased exponent field. -/
def expField (x : Double) : Nat := (x.bits / 2 ^ 52) % 2048

/-- The 52-bit fraction field. -/
def fracField (x : Double) : Nat := x.bits % 2 ^ 52

/-- The sign bit. -/
def signBit (x : Double) : Bool := (x.bits / 2 ^ 63) % 2 = 1

/-- Whether the pattern is a NaN: exponent all ones, fraction non-zero. -/
def isNaN (x : Double) : Bool := x.expField = 2047 && x.fracField ≠ 0

/-- Whether the pattern is `+0.0` or `-0.0`. -/
def isZero (x : Double) : Bool := x.expField = 0 && x.fracField = 0

/-- The literal `0.0`. -/
def zero : Double := ⟨0⟩

/-- The C comparison `x == y` on doubles: false when either side is a NaN,
true for two zeros whatever their signs, otherwise equality of patterns. -/
def eq (x y : Double) : Bool :=
  if x.isNaN || y.isNaN then false
  else if x.isZero && y.isZero then true
  else x.bits % 2 ^ 64 = y.bits % 2 ^ 64

end Double

/-- The floating-point operations of the machine the program runs on. -/
structure FPU where
  fadd : Double → Double → Double
  fsub : Double → Double → Double
  fmul : Double → Double → Double
  fdiv : Double → Double → Double


/-! ## A concrete floating-point unit

Binary64 arithmetic with round-to-nearest-even, and the NaN conventions of
x86-64 SSE2 (an invalid operation yields the negative quiet NaN; a NaN operand
is returned quieted, the first operand having priority). -/

namespace IEEE754

/-- Whether the pattern is an infinity. -/
def isInf (x : Double) : Bool := x.expField = 2047 && x.fracField = 0

/-- The pattern with the given sign bit and the given lower 63 bits. -/
def signed (s : Bool) (magnitude : Nat) : Double := ⟨(if s then 2 ^ 63 else 0) + magnitude⟩

/-- Signed infinity. -/
def infinity (s : Bool) : Double := signed s (2047 * 2 ^ 52)

/-- The quiet NaN produced by an invalid operation. -/
def defaultNaN : Double := signed true (2047 * 2 ^ 52 + 2 ^ 51)

/-- Sets the quiet bit of a NaN. -/
def quiet (x : Double) : Double :=
  if (x.bits / 2 ^ 51) % 2 = 1 then ⟨x.bits % 2 ^ 64⟩ else ⟨x.bits % 2 ^ 64 + 2 ^ 51⟩

/-- The result of an operation one of whose operands is a NaN. -/
def propagate (x y : Double) : Double := if x.isNaN then quiet x else quiet y

/-- Flips the sign bit. -/
def negate (x : Double) : Double := signed (!x.signBit) (x.bits % 2 ^ 63)

/-- The integer significand of a finite pattern. -/
def sig (x : Double) : Nat := if x.expField = 0 then x.fracField else 2 ^ 52 + x.fracField

/-- The exponent of the last place of a finite pattern, offset by 1074: the
magnitude of `x` is `sig x * 2 ^ ulp x / 2 ^ 1074`. -/
def ulp (x : Double) : Nat := if x.expField = 0 then 0 else x.expField - 1

/-- The number of binary digits of `n`, computed with at most `fuel` halvings;
`bitLen n n` is exact because `n < 2 ^ n`. -/
def bitLen : Nat → Nat → Nat
  | 0, _ => 0
  | fuel + 1, n => if n = 0 then 0 else bitLen fuel (n / 2) + 1

/-- The double nearest to `n / d * 2 ^ e / 2 ^ 1074` (ties to even), with sign
`s`. The result is `q * 2 ^ k / 2 ^ 1074` with `q` below `2 ^ 53`, packed as
`k * 2 ^ 52 + q`, which is the pattern of a subnormal for `k = 0`, of a normal
number otherwise, and carries into the exponent when rounding reaches
`2 ^ 53`. -/
def round (s : Bool) (n d : Nat) (e : Int) : Double :=
  if n = 0 then signed s 0 else
  let a := bitLen n n
  let b := bitLen d d
  let below : Bool := if b ≤ a then n < d * 2 ^ (a - b) else n * 2 ^ (b - a) < d
  let k1 : Int := (a : Int) - (b : Int) - 52 + e - (if below then 1 else 0)
  let k : Int := max k1 0
  let num := n * 2 ^ (e - k).toNat
  let den := d * 2 ^ (k - e).toNat
  let q := num / den
  let r := num % den
  let q1 := if den < 2 * r || (2 * r = den && q % 2 = 1) then q + 1 else q
  let m := k.toNat * 2 ^ 52 + q1
  if 2047 * 2 ^ 52 ≤ m then infinity s else signed s m

/-- Addition. -/
def fadd (x y : Double) : Double :=
  if x.isNaN || y.isNaN then propagate x y
  else if isInf x then
    (if isInf y && x.signBit != y.signBit then defaultNaN else infinity x.signBit)
  else if isInf y then infinity y.signBit
  else
    let u := min (ulp x) (ulp y)
    let mx := sig x * 2 ^ (ulp x - u)
    let my := sig y * 2 ^ (ulp y - u)
    if x.signBit = y.signBit then round x.signBit (mx + my) 1 u
    else if mx = my then signed false 0
    else if my < mx then round x.signBit (mx - my) 1 u
    else round y.signBit (my - mx) 1 u

/-- Subtraction. -/
def fsub (x y : Double) : Double :=
  if x.isNaN || y.isNaN then propagate x y else fadd x (negate y)

/-- Multiplication. -/
def fmul (x y : Double) : Double :=
  let s := x.signBit != y.signBit
  if x.isNaN || y.isNaN then propagate x y
  else if isInf x || isInf y then
    (if x.isZero || y.isZero then defaultNaN else infinity s)
  else round s (sig x * sig y) 1 ((ulp x : Int) + (ulp y : Int) - 1074)

/-- Division. -/
def fdiv (x y : Double) : Double :=
  let s := x.signBit != y.signBit
  if x.isNaN || y.isNaN then propagate x y
  else if isInf x then (if isInf y then defaultNaN else infinity s)
  else if isInf y then signed s 0
  else if y.isZero then (if x.isZero then defaultNaN else infinity s)
  else round s (sig x) (sig y) ((ulp x : Int) - (ulp y : Int) + 1074)

end IEEE754

/-- A concrete unit: IEEE-754 binary64, round-to-nearest-even. -/
def ieee754 : FPU := ⟨IEEE754.fadd, IEEE754.fsub, IEEE754.fmul, IEEE754.fdiv⟩

/-- The double 2.0. -/
def d2 : Double := ⟨0x4000000000000000⟩
/-- The double 3.0. -/
def d3 : Double := ⟨0x4008000000000000⟩
/-- The double 5.0. -/
def d5 : Double := ⟨0x4014000000000000⟩
/-- The double 10.0. -/
def d10 : Double := ⟨0x4024000000000000⟩
/-- The double -0.0. -/
def negZero : Double := ⟨0x8000000000000000⟩

/-! ## calc_common.h -/

/-- Enumerator `ADD = 1` of `OperationType`. -/
def ADD : Int := 1
/-- Enumerator `SUBTRACT = 2` of `OperationType`. -/
def SUBTRACT : Int := 2
/-- Enumerator `MULTIPLY = 3` of `OperationType`. -/
def MULTIPLY : Int := 3
/-- Enumerator `DIVIDE = 4` of `OperationType`. -/
def DIVIDE : Int := 4

/-- The record `CalculatorRequest`. The field `operation` holds whatever
integer the four bytes received denote, not only the four enumerators. -/
structure CalculatorRequest where
  operation : Int
  num1 : Double
  num2 : Double
  deriving DecidableEq, Repr

/-- The record `CalculatorResponse`. -/
structure CalculatorResponse where
  status : Int
  result : Double
  deriving DecidableEq, Repr

/-! ## calc_logic.c -/

/-- C function `double add(double num1, double num2)`. -/
def add (fpu : FPU) (num1 num2 : Double) : Double := fpu.fadd num1 num2

/-- C function `double subtract(double num1, double num2)`. -/
def subtract (fpu : FPU) (num1 num2 : Double) : Double := fpu.fsub num1 num2

/-- C function `double multiply(double num1, double num2)`. -/
def multiply (fpu : FPU) (num1 num2 : Double) : Double := fpu.fmul num1 num2

/-- C function `double divide(double num1, double num2)`, with its fallback
for a zero divisor. -/
def divide (fpu : FPU) (num1 num2 : Double) : Double :=
  if Double.eq num2 Double.zero then Double.zero
  else fpu.fdiv num1 num2

/-! ## Effects -/

/-- The functions of the arithmetic unit. -/
inductive ArithFn
  | add | subtract | multiply | divide
  deriving DecidableEq, Repr

/-- The messages the servers print. -/
inductive LogMsg
  /-- Text "Client disconnected gracefully." -/
  | disconnected
  /-- Text "ERROR: recv failed" or "ERROR: recvfrom failed". -/
  | recvFailed
  /-- Text "WARNING: Received incomplete request (expected .. bytes, got ..)." -/
  | incomplete (expected : Nat) (got : Int)
  /-- Text "Received request: Operation .., Num1=.., Num2=..". -/
  | received (request : CalculatorRequest)
  /-- Text "Error: Division by zero requested." -/
  | divisionByZero
  /-- Text "Error: Invalid operation received (..)." -/
  | invalidOperation (operation : Int)
  /-- Text "ERROR: send failed" or "ERROR: sendto failed". -/
  | sendFailed
  /-- Text "Sent response: Status=.., Result=..". -/
  | sent (response : CalculatorResponse)
  deriving DecidableEq, Repr

/-- What a loop iteration does, in order. -/
inductive Event
  /-- A message on stdout or stderr. -/
  | log (msg : LogMsg)
  /-- A call into calc_logic.c. -/
  | call (fn : ArithFn) (num1 num2 : Double)
  /-- A response record handed to `send` or `sendto`. -/
  | send (response : CalculatorResponse)
  deriving DecidableEq, Repr

/-- How a loop iteration ends: `next` goes on to the following iteration
(`continue`, or the end of the loop body), `stop` leaves the loop (`break`). -/
inductive Control
  | next | stop
  deriving DecidableEq, Repr

/-- Whether an event is a call into the arithmetic unit. -/
def Event.isCall : Event → Bool
  | .call _ _ _ => true
  | _ => false

/-- Whether an event is a transmission. -/
def Event.isSend : Event → Bool
  | .send _ => true
  | _ => false

/-- The responses transmitted in a trace, in order. -/
def sentResponses : List Event → List CalculatorResponse
  | [] => []
  | .send r :: es => r :: sentResponses es
  | _ :: es => sentResponses es

/-! ## Records in memory

The records are transmitted as their bytes in memory (`send(sock, &request,
sizeof(CalculatorRequest), 0)`), so the wire format is the layout the compiler
gives the two structs. The layout follows the usual rule: members in
declaration order, each at the next multiple of its alignment, the size rounded
up to the alignment of the struct. `int` and the enum take 4 bytes aligned at
4, `double` takes 8 bytes; the alignment of `double` inside a struct and the
byte order are those of the platform. -/

/-- The platform properties the layout depends on. -/
structure ABI where
  /-- Alignment of a `double` member: 8 on x86-64 and AArch64, 4 on i386
  System V. -/
  alignDouble : Nat
  /-- Whether the most significant byte comes first. -/
  bigEndian : Bool
  deriving DecidableEq, Repr

/-- The x86-64 System V platform (also the layout of AArch64 Linux). -/
def x86_64 : ABI := ⟨8, false⟩

/-- The i386 System V platform. -/
def i386 : ABI := ⟨4, false⟩

/-- The least multiple of `a` that is at least `off`. -/
def alignUp (off a : Nat) : Nat := (off + a - 1) / a * a

/-- Alignment of both structs. -/
def structAlign (abi : ABI) : Nat := max 4 abi.alignDouble

/-- Offset of `num1` in `CalculatorRequest`. -/
def offsetNum1 (abi : ABI) : Nat := alignUp 4 abi.alignDouble

/-- Offset of `num2` in `CalculatorRequest`. -/
def offsetNum2 (abi : ABI) : Nat := alignUp (offsetNum1 abi + 8) abi.alignDouble

/-- Value of `sizeof(CalculatorRequest)`. -/
def sizeofRequest (abi : ABI) : Nat := alignUp (offsetNum2 abi + 8) (structAlign abi)

/-- Offset of `result` in `CalculatorResponse`. -/
def offsetResult (abi : ABI) : Nat := alignUp 4 abi.alignDouble

/-- Value of `sizeof(CalculatorResponse)`. -/
def sizeofResponse (abi : ABI) : Nat := alignUp (offsetResult abi + 8) (structAlign abi)

/-- The `w` bytes of `n`, least significant first. -/
def bytesLE : Nat → Nat → List Nat
  | 0, _ => []
  | w + 1, n => n % 256 :: bytesLE w (n / 256)

/-- The number whose bytes, least significant first, are given. -/
def ofBytesLE : List Nat → Nat
  | [] => 0
  | b :: bs => b % 256 + 256 * ofBytesLE bs

/-- The bytes of a `w`-byte scalar in memory. -/
def storeWord (abi : ABI) (w n : Nat) : List Nat :=
  if abi.bigEndian then (bytesLE w n).reverse else bytesLE w n

/-- The scalar stored in the given bytes. -/
def loadWord (abi : ABI) (bs : List Nat) : Nat :=
  if abi.bigEndian then ofBytesLE bs.reverse else ofBytesLE bs

/-- The 32-bit two's complement pattern of an `int`. -/
def intToWord (i : Int) : Nat := (i % 2 ^ 32).toNat

/-- The `int` denoted by a 32-bit pattern. -/
def wordToInt (n : Nat) : Int := if n % 2 ^ 32 < 2 ^ 31 then (n % 2 ^ 32 : Nat) else (n % 2 ^ 32 : Nat) - 2 ^ 32

/-- The bytes at offsets `off .. off + len - 1`. -/
def slice (buf : List Nat) (off len : Nat) : List Nat := (buf.drop off).take len

/-- The `len` padding bytes starting at offset `off`; what they hold is not
determined by the members. -/
def padding (junk : Nat → Nat) (off len : Nat) : List Nat :=
  (List.range len).map (fun i => junk (off + i) % 256)

/-- The bytes of a `CalculatorRequest` object, as `send` reads them. -/
def requestBytes (abi : ABI) (junk : Nat → Nat) (r : CalculatorRequest) : List Nat :=
  storeWord abi 4 (intToWord r.operation)
    ++ (padding junk 4 (offsetNum1 abi - 4)
    ++ (storeWord abi 8 r.num1.bits
    ++ (padding junk (offsetNum1 abi + 8) (offsetNum2 abi - (offsetNum1 abi + 8))
    ++ (storeWord abi 8 r.num2.bits
    ++ padding junk (offsetNum2 abi + 8) (sizeofRequest abi - (offsetNum2 abi + 8))))))

/-- The members of the `CalculatorRequest` object occupying the given bytes. -/
def requestOfBytes (abi : ABI) (buf : List Nat) : CalculatorRequest :=
  { operation := wordToInt (loadWord abi (slice buf 0 4))
    num1 := ⟨loadWord abi (slice buf (offsetNum1 abi) 8)⟩
    num2 := ⟨loadWord abi (slice buf (offsetNum2 abi) 8)⟩ }

/-- The bytes of a `CalculatorResponse` object, as `send` reads them. -/
def responseBytes (abi : ABI) (junk : Nat → Nat) (r : CalculatorResponse) : List Nat :=
  storeWord abi 4 (intToWord r.status)
    ++ (padding junk 4 (offsetResult abi - 4)
    ++ (storeWord abi 8 r.result.bits
    ++ padding junk (offsetResult abi + 8) (sizeofResponse abi - (offsetResult abi + 8))))

/-- The members of the `CalculatorResponse` object occupying the given bytes. -/
def responseOfBytes (abi : ABI) (buf : List Nat) : CalculatorResponse :=
  { status := wordToInt (loadWord abi (slice buf 0 4))
    result := ⟨loadWord abi (slice buf (offsetResult abi) 8)⟩ }

/-- The values a request can hold: a 32-bit operation and two 64-bit doubles. -/
def CalculatorRequest.WF (r : CalculatorRequest) : Prop :=
  -2 ^ 31 ≤ r.operation ∧ r.operation < 2 ^ 31 ∧ r.num1.WF ∧ r.num2.WF

/-- The values a response can hold: a 32-bit status and a 64-bit double. -/
def CalculatorResponse.WF (r : CalculatorResponse) : Prop :=
  -2 ^ 31 ≤ r.status ∧ r.status < 2 ^ 31 ∧ r.result.WF

instance (r : CalculatorRequest) : Decidable r.WF := by
  unfold CalculatorRequest.WF; infer_instance

instance (r : CalculatorResponse) : Decidable r.WF := by
  unfold CalculatorResponse.WF; infer_instance

/-! ## Receiving -/

/-- The outcome of a `recv` or `recvfrom` call: the value returned and the
bytes stored at the start of the buffer. -/
structure RecvResult where
  ret : Int
  data : List Nat
  deriving DecidableEq, Repr

/-- The content of a `size`-byte object that was cleared with `memset` and then
passed to `recv` as the buffer. -/
def recvInto (size : Nat) (data : List Nat) : List Nat :=
  (data ++ List.replicate (size - data.length) 0).take size

/-- Datagram receive of the socket interface with flags 0 and a buffer of
`len` bytes: the datagram is copied up to the length of the buffer, the excess
is discarded, and the number of bytes copied is returned. -/
def recvfrom (len : Nat) (datagram : List Nat) : RecvResult :=
  ⟨(min datagram.length len : Nat), datagram.take len⟩

/-- The request a server finds in its buffer after a receive: the buffer is
cleared with `memset` before `recv`/`recvfrom` stores the received bytes. -/
def receivedRequest (abi : ABI) (received : RecvResult) : CalculatorRequest :=
  requestOfBytes abi (recvInto (sizeofRequest abi) received.data)

/-! ## coi_server.c: the TCP server -/

namespace coi_server

/-- The processing step of `handle_client`: the two default assignments to
`response` and the `switch` on `request.operation`. Returns the response and
the calls and error messages of the step. -/
def handle_client_switch (fpu : FPU) (request : CalculatorRequest) :
    CalculatorResponse × List Event :=
  let response : CalculatorResponse := { status := 0, result := Double.zero }
  if request.operation = ADD then
    ({ response with result := add fpu request.num1 request.num2 },
      [.call .add request.num1 request.num2])
  else if request.operation = SUBTRACT then
    ({ response with result := subtract fpu request.num1 request.num2 },
      [.call .subtract request.num1 request.num2])
  else if request.operation = MULTIPLY then
    ({ response with result := multiply fpu request.num1 request.num2 },
      [.call .multiply request.num1 request.num2])
  else if request.operation = DIVIDE then
    if Double.eq request.num2 Double.zero then
      ({ response with status := -1 }, [.log .divisionByZero])
    else
      ({ response with result := divide fpu request.num1 request.num2 },
        [.call .divide request.num1 request.num2])
  else
    ({ response with status := -1 }, [.log (.invalidOperation request.operation)])

/-- One iteration of the `while (1)` loop of `handle_client`. `received` is
the outcome of the `recv` call and `sendRet` the value the `send` call of the
iteration returns. -/
def handle_client_iter (abi : ABI) (fpu : FPU) (received : RecvResult) (sendRet : Int) :
    Control × List Event :=
  let request := receivedRequest abi received
  let bytes_received := received.ret
  if bytes_received ≤ 0 then
    if bytes_received = 0 then (.stop, [.log .disconnected])
    else (.stop, [.log .recvFailed])
  else if bytes_received ≠ (sizeofRequest abi : Int) then
    (.next, [.log (.incomplete (sizeofRequest abi) bytes_received),
             .send { status := -1, result := Double.zero }])
  else
    let step := handle_client_switch fpu request
    if sendRet < 0 then
      (.stop, .log (.received request) :: step.2 ++ [.send step.1, .log .sendFailed])
    else
      (.next, .log (.received request) :: step.2 ++ [.send step.1, .log (.sent step.1)])

/-- The loop of `handle_client` run on the successive outcomes of its `recv`
and `send` calls, up to the `break` or to the end of the given outcomes. -/
def handle_client (abi : ABI) (fpu : FPU) : List (RecvResult × Int) → List Event
  | [] => []
  | (received, sendRet) :: rest =>
    match handle_client_iter abi fpu received sendRet with
    | (.stop, events) => events
    | (.next, events) => events ++ handle_client abi fpu rest

/-- The responses the TCP server transmits in one iteration. -/
def replies (abi : ABI) (fpu : FPU) (received : RecvResult) (sendRet : Int) :
    List CalculatorResponse :=
  sentResponses (handle_client_iter abi fpu received sendRet).2

end coi_server

/-! ## calc_udp_server.c: the UDP server -/

namespace calc_udp_server

/-- The processing step of the loop of `main`: the two default assignments to
`response` and the `switch` on `request.operation`. -/
def main_switch (fpu : FPU) (request : CalculatorRequest) :
    CalculatorResponse × List Event :=
  let response : CalculatorResponse := { status := 0, result := Double.zero }
  if request.operation = ADD then
    ({ response with result := add fpu request.num1 request.num2 },
      [.call .add request.num1 request.num2])
  else if request.operation = SUBTRACT then
    ({ response with result := subtract fpu request.num1 request.num2 },
      [.call .subtract request.num1 request.num2])
  else if request.operation = MULTIPLY then
    ({ response with result := multiply fpu request.num1 request.num2 },
      [.call .multiply request.num1 request.num2])
  else if request.operation = DIVIDE then
    if Double.eq request.num2 Double.zero then
      ({ response with status := -1 }, [.log .divisionByZero])
    else
      ({ response with result := divide fpu request.num1 request.num2 },
        [.call .divide request.num1 request.num2])
  else
    ({ response with status := -1 }, [.log (.invalidOperation request.operation)])

/-- One iteration of the `while (1)` loop of `main`. `received` is the outcome
of the `recvfrom` call and `sendRet` the value the `sendto` call returns. -/
def main_iter (abi : ABI) (fpu : FPU) (received : RecvResult) (sendRet : Int) :
    Control × List Event :=
  let request := receivedRequest abi received
  let bytes_received := received.ret
  if bytes_received < 0 then (.next, [.log .recvFailed])
  else if bytes_received ≠ (sizeofRequest abi : Int) then
    (.next, [.log (.incomplete (sizeofRequest abi) bytes_received)])
  else
    let step := main_switch fpu request
    if sendRet < 0 then
      (.next, .log (.received request) :: step.2
        ++ [.send step.1, .log .sendFailed, .log (.sent step.1)])
    else
      (.next, .log (.received request) :: step.2 ++ [.send step.1, .log (.sent step.1)])

/-- The loop of `main` run on the successive outcomes of its `recvfrom` and
`sendto` calls, up to a `stop` or to the end of the given outcomes. -/
def main_loop (abi : ABI) (fpu : FPU) : List (RecvResult × Int) → List Event
  | [] => []
  | (received, sendRet) :: rest =>
    match main_iter abi fpu received sendRet with
    | (.stop, events) => events
    | (.next, events) => events ++ main_loop abi fpu rest

/-- The responses the UDP server transmits in one iteration. -/
def replies (abi : ABI) (fpu : FPU) (received : RecvResult) (sendRet : Int) :
    List CalculatorResponse :=
  sentResponses (main_iter abi fpu received sendRet).2

end calc_udp_server

/-! ## The serving loops on their local variables

The local variables `request`, `response` and `bytes_received` of the two
servers are declared outside the `while (1)` loops, so they carry their values
from one iteration to the next (and, in the TCP server, the stack slots of
`handle_client` carry them from one client to the next). The definitions below
follow the loop bodies statement by statement on these variables. -/

/-- The bytes of an object after a receive stored `data` at its start. -/
def storeAt (buf data : List Nat) : List Nat :=
  data.take buf.length ++ buf.drop data.length

/-- The local variables of a serving loop; `request` is held as the bytes of
the object. -/
structure Locals where
  request : List Nat
  response : CalculatorResponse
  bytes_received : Int
  deriving DecidableEq, Repr

namespace coi_server

/-- The assignments to `response` made by the processing step of
`handle_client`, starting from the value `response` holds. -/
def handle_client_assign (fpu : FPU) (request : CalculatorRequest)
    (response : CalculatorResponse) : CalculatorResponse × List Event :=
  let response := { response with status := 0 }
  let response := { response with result := Double.zero }
  if request.operation = ADD then
    ({ response with result := add fpu request.num1 request.num2 },
      [.call .add request.num1 request.num2])
  else if request.operation = SUBTRACT then
    ({ response with result := subtract fpu request.num1 request.num2 },
      [.call .subtract request.num1 request.num2])
  else if request.operation = MULTIPLY then
    ({ response with result := multiply fpu request.num1 request.num2 },
      [.call .multiply request.num1 request.num2])
  else if request.operation = DIVIDE then
    if Double.eq request.num2 Double.zero then
      ({ response with status := -1 }, [.log .divisionByZero])
    else
      ({ response with result := divide fpu request.num1 request.num2 },
        [.call .divide request.num1 request.num2])
  else
    ({ response with status := -1 }, [.log (.invalidOperation request.operation)])

/-- The body of the `while (1)` loop of `handle_client` on the local
variables: `memset`, `recv`, the two checks of `bytes_received`, the
processing step and `send`. -/
def handle_client_body (abi : ABI) (fpu : FPU) (locals : Locals) (received : RecvResult)
    (sendRet : Int) : Control × Locals × List Event :=
  let locals := { locals with request := List.replicate (sizeofRequest abi) 0 }
  let locals := { locals with request := storeAt locals.request received.data,
                              bytes_received := received.ret }
  if locals.bytes_received ≤ 0 then
    if locals.bytes_received = 0 then (.stop, locals, [.log .disconnected])
    else (.stop, locals, [.log .recvFailed])
  else if locals.bytes_received ≠ (sizeofRequest abi : Int) then
    let locals := { locals with response := { locals.response with status := -1 } }
    let locals := { locals with response := { locals.response with result := Double.zero } }
    (.next, locals, [.log (.incomplete (sizeofRequest abi) locals.bytes_received),
                     .send locals.response])
  else
    let request := requestOfBytes abi locals.request
    let step := handle_client_assign fpu request locals.response
    let locals := { locals with response := step.1 }
    if sendRet < 0 then
      (.stop, locals,
        .log (.received request) :: step.2 ++ [.send locals.response, .log .sendFailed])
    else
      (.next, locals,
        .log (.received request) :: step.2
          ++ [.send locals.response, .log (.sent locals.response)])

/-- The local variables after the loop body ran on each of the given outcomes
in turn, whether within one call of `handle_client` or across calls. -/
def localsAfter (abi : ABI) (fpu : FPU) (locals : Locals) :
    List (RecvResult × Int) → Locals
  | [] => locals
  | (received, sendRet) :: rest =>
    localsAfter abi fpu (handle_client_body abi fpu locals received sendRet).2.1 rest

end coi_server

namespace calc_udp_server

/-- The assignments to `response` made by the processing step of the loop of
`main`, starting from the value `response` holds. -/
def main_assign (fpu : FPU) (request : CalculatorRequest)
    (response : CalculatorResponse) : CalculatorResponse × List Event :=
  let response := { response with status := 0 }
  let response := { response with result := Double.zero }
  if request.operation = ADD then
    ({ response with result := add fpu request.num1 request.num2 },
      [.call .add request.num1 request.num2])
  else if request.operation = SUBTRACT then
    ({ response with result := subtract fpu request.num1 request.num2 },
      [.call .subtract request.num1 request.num2])
  else if request.operation = MULTIPLY then
    ({ response with result := multiply fpu request.num1 request.num2 },
      [.call .multiply request.num1 request.num2])
  else if request.operation = DIVIDE then
    if Double.eq request.num2 Double.zero then
      ({ response with status := -1 }, [.log .divisionByZero])
    else
      ({ response with result := divide fpu request.num1 request.num2 },
        [.call .divide request.num1 request.num2])
  else
    ({ response with status := -1 }, [.log (.invalidOperation request.operation)])

/-- The body of the `while (1)` loop of `main` on the local variables:
`memset`, `recvfrom`, the two checks of `bytes_received`, the processing step
and `sendto`. -/
def main_body (abi : ABI) (fpu : FPU) (locals : Locals) (received : RecvResult)
    (sendRet : Int) : Control × Locals × List Event :=
  let locals := { locals with request := List.replicate (sizeofRequest abi) 0 }
  let locals := { locals with request := storeAt locals.request received.data,
                              bytes_received := received.ret }
  if locals.bytes_received < 0 then (.next, locals, [.log .recvFailed])
  else if locals.bytes_received ≠ (sizeofRequest abi : Int) then
    (.next, locals, [.log (.incomplete (sizeofRequest abi) locals.bytes_received)])
  else
    let request := requestOfBytes abi locals.request
    let step := main_assign fpu request locals.response
    let locals := { locals with response := step.1 }
    if sendRet < 0 then
      (.next, locals, .log (.received request) :: step.2
        ++ [.send locals.response, .log .sendFailed, .log (.sent locals.response)])
    else
      (.next, locals, .log (.received request) :: step.2
        ++ [.send locals.response, .log (.sent locals.response)])

/-- The local variables after the loop body ran on each of the given outcomes
in turn. -/
def localsAfter (abi : ABI) (fpu : FPU) (locals : Locals) :
    List (RecvResult × Int) → Locals
  | [] => locals
  | (received, sendRet) :: rest =>
    localsAfter abi fpu (main_body abi fpu locals received sendRet).2.1 rest

end calc_udp_server

/-! ## The clients: coi_client.c and calc_udp_client.c -/

/-- The IPv4 address and port of a `struct sockaddr_in`. -/
structure SockAddr where
  sin_addr : Nat
  sin_port : Nat
  deriving DecidableEq, Repr

/-- What the user enters in one pass through the menu. Each field is the value
read by the corresponding `scanf` call, or `none` when that call does not
return 1. -/
structure MenuInput where
  choice : Option Int
  num1 : Option Double
  num2 : Option Double
  deriving DecidableEq, Repr

/-- The messages the clients print. -/
inductive ClientMsg
  /-- The menu and the prompt "Enter your choice: ". -/
  | menu
  /-- Text "Invalid input. Please enter a number." -/
  | invalidInput
  /-- Text "Exiting client. Goodbye!" -/
  | goodbye
  /-- Text "Invalid input. Please enter a valid number." -/
  | invalidNumber
  /-- Text "ERROR: send failed" or "ERROR: sendto failed". -/
  | sendFailed
  /-- Text "WARNING: Sent incomplete request (expected .., sent ..)." -/
  | incompleteSent (expected : Nat) (sent : Int)
  /-- Text "Request sent to server." -/
  | requestSent
  /-- Text "Server closed the connection unexpectedly." -/
  | serverClosed
  /-- Text "ERROR: recv failed" or "ERROR: recvfrom failed". -/
  | recvFailed
  /-- Text "WARNING: Received incomplete response (..)" and "Server response
  malformed." -/
  | malformed (expected : Nat) (got : Int)
  /-- Text "Server Result: ..". -/
  | serverResult (result : Double)
  /-- Text "Server Error: Division by zero." -/
  | divisionByZero
  /-- Text "Server Error: Operation failed or invalid input on server." -/
  | operationFailed
  /-- Text "Invalid choice. Please enter a number between 0 and 4." -/
  | invalidChoice
  deriving DecidableEq, Repr

/-- What a pass through the loop of a client does, in order. -/
inductive ClientEvent
  /-- A message on stdout or stderr. -/
  | print (msg : ClientMsg)
  /-- A request record handed to `send` on the connected socket. -/
  | send (request : CalculatorRequest)
  /-- A request record handed to `sendto` with the given destination. -/
  | sendto (request : CalculatorRequest) (dest : SockAddr)
  deriving DecidableEq, Repr

/-- The requests transmitted in a trace, in order. -/
def sentRequests : List ClientEvent → List CalculatorRequest
  | [] => []
  | .send r :: es => r :: sentRequests es
  | .sendto r _ :: es => r :: sentRequests es
  | .print _ :: es => sentRequests es

/-- The destinations of the datagrams transmitted in a trace, in order. -/
def destinations : List ClientEvent → List SockAddr
  | [] => []
  | .sendto _ dest :: es => dest :: destinations es
  | _ :: es => destinations es

/-- The outcome of a `recvfrom` call of the UDP client: the value returned,
the bytes stored in the buffer and the source address of the datagram. -/
structure RecvFromResult where
  ret : Int
  data : List Nat
  source : SockAddr
  deriving DecidableEq, Repr

namespace coi_client

/-- The display of a full-size response (step 6 of the loop of `main`). -/
def display (request : CalculatorRequest) (response : CalculatorResponse) : ClientMsg :=
  if response.status = 0 then .serverResult response.result
  else if request.operation = DIVIDE ∧ Double.eq request.num2 Double.zero then .divisionByZero
  else .operationFailed

/-- One pass through the `while (1)` loop of `main` of the TCP client.
`sendRet` is the value `send` returns and `received` the outcome of `recv`,
for the passes that reach these calls. -/
def main_iter (abi : ABI) (input : MenuInput) (sendRet : Int) (received : RecvResult) :
    Control × List ClientEvent :=
  match input.choice with
  | none => (.next, [.print .menu, .print .invalidInput])
  | some choice =>
    if choice = 0 then (.stop, [.print .menu, .print .goodbye])
    else if choice ≥ ADD ∧ choice ≤ DIVIDE then
      match input.num1 with
      | none => (.next, [.print .menu, .print .invalidNumber])
      | some num1 =>
        match input.num2 with
        | none => (.next, [.print .menu, .print .invalidNumber])
        | some num2 =>
          let request : CalculatorRequest :=
            { operation := choice, num1 := num1, num2 := num2 }
          let bytes_sent := sendRet
          if bytes_sent < 0 then
            (.stop, [.print .menu, .send request, .print .sendFailed])
          else
            let sent : List ClientEvent :=
              [.print .menu, .send request]
                ++ (if bytes_sent ≠ (sizeofRequest abi : Int)
                    then [.print (.incompleteSent (sizeofRequest abi) bytes_sent)] else [])
                ++ [.print .requestSent]
            let bytes_received := received.ret
            if bytes_received ≤ 0 then
              if bytes_received = 0 then (.stop, sent ++ [.print .serverClosed])
              else (.stop, sent ++ [.print .recvFailed])
            else if bytes_received ≠ (sizeofResponse abi : Int) then
              (.next, sent ++ [.print (.malformed (sizeofResponse abi) bytes_received)])
            else
              let response := responseOfBytes abi received.data
              (.next, sent ++ [.print (display request response)])
    else (.next, [.print .menu, .print .invalidChoice])

end coi_client

namespace calc_udp_client

/-- The display of a full-size response (step 5 of the loop of `main`). -/
def display (request : CalculatorRequest) (response : CalculatorResponse) : ClientMsg :=
  if response.status = 0 then .serverResult response.result
  else if request.operation = DIVIDE ∧ Double.eq request.num2 Double.zero then .divisionByZero
  else .operationFailed

/-- The value of `server_addr` prepared at startup (step 2 of `main`) from the
address `inet_addr(server_ip)` and the port `htons(port)`. -/
def startup (address port : Nat) : SockAddr :=
  { sin_addr := address, sin_port := port }

/-- One pass through the `while (1)` loop of `main` of the UDP client, on the
variable `server_addr`, which is declared outside the loop. `sendto` is given
`&server_addr` as the destination, and `recvfrom` is given `&server_addr` as
the place to store the source address of the datagram it receives. -/
def main_iter (abi : ABI) (server_addr : SockAddr) (input : MenuInput) (sendRet : Int)
    (received : RecvFromResult) : Control × SockAddr × List ClientEvent :=
  match input.choice with
  | none => (.next, server_addr, [.print .menu, .print .invalidInput])
  | some choice =>
    if choice = 0 then (.stop, server_addr, [.print .menu, .print .goodbye])
    else if choice ≥ ADD ∧ choice ≤ DIVIDE then
      match input.num1 with
      | none => (.next, server_addr, [.print .menu, .print .invalidNumber])
      | some num1 =>
        match input.num2 with
        | none => (.next, server_addr, [.print .menu, .print .invalidNumber])
        | some num2 =>
          let request : CalculatorRequest :=
            { operation := choice, num1 := num1, num2 := num2 }
          let bytes_sent := sendRet
          if bytes_sent < 0 then
            (.stop, server_addr, [.print .menu, .sendto request server_addr, .print .sendFailed])
          else
            let sent : List ClientEvent :=
              [.print .menu, .sendto request server_addr]
                ++ (if bytes_sent ≠ (sizeofRequest abi : Int)
                    then [.print (.incompleteSent (sizeofRequest abi) bytes_sent)] else [])
                ++ [.print .requestSent]
            let bytes_received := received.ret
            if bytes_received < 0 then (.stop, server_addr, sent ++ [.print .recvFailed])
            else
              let server_addr := received.source
              if bytes_received ≠ (sizeofResponse abi : Int) then
                (.next, server_addr,
                  sent ++ [.print (.malformed (sizeofResponse abi) bytes_received)])
              else
                let response := responseOfBytes abi received.data
                (.next, server_addr, sent ++ [.print (display request response)])
    else (.next, server_addr, [.print .menu, .print .invalidChoice])

/-- The loop of `main` of the UDP client run on the successive inputs and
outcomes of its calls, up to the `break` or to the end of the given ones. -/
def main_loop (abi : ABI) (server_addr : SockAddr) :
    List (MenuInput × Int × RecvFromResult) → List ClientEvent
  | [] => []
  | (input, sendRet, received) :: rest =>
    match main_iter abi server_addr input sendRet received with
    | (.stop, _, events) => events
    | (.next, server_addr, events) => events ++ main_loop abi server_addr rest

end calc_udp_client

/-- The request Add 2.0 3.0. -/
def reqAdd : CalculatorRequest := ⟨ADD, d2, d3⟩

/-- A full-size receive of the bytes of `r` on x86-64, the padding holding
0xAA. -/
def fullRecv (r : CalculatorRequest) : RecvResult :=
  ⟨24, requestBytes x86_64 (fun _ => 0xAA) r⟩

/-- A datagram of 25 bytes: the 24 bytes of the request Add 2.0 3.0 on x86-64
followed by one more byte. -/
def oversized : List Nat := requestBytes x86_64 (fun _ => 0xAA) reqAdd ++ [0]

/-- The address 127.0.0.1 with port 6001, as prepared by the UDP client at
startup. -/
def serverAddr : SockAddr := calc_udp_client.startup 0x7F000001 6001

/-- The address 10.0.0.9 with port 7777. -/
def otherAddr : SockAddr := ⟨0x0A000009, 7777⟩

/-- The menu input "1", "2.0", "3.0". -/
def inputAdd : MenuInput := ⟨some 1, some d2, some d3⟩

/-- A full-size datagram holding the response (0, 5.0) on x86-64, coming from
the given address. -/
def replyFrom (source : SockAddr) : RecvFromResult :=
  ⟨16, responseBytes x86_64 (fun _ => 0) ⟨0, d5⟩, source⟩

end Calc

/-! # Properties -/

namespace Calc

open coi_server calc_udp_server

/-! ## Auxiliary facts -/

theorem le_alignUp (off a : Nat) (ha : 0 < a) : off ≤ alignUp off a := by
  unfold alignUp
  have h1 := Nat.div_add_mod (off + a - 1) a
  have h2 := Nat.mod_lt (off + a - 1) ha
  have h3 : (off + a - 1) / a * a = a * ((off + a - 1) / a) := Nat.mul_comm _ _
  omega

theorem structAlign_pos (abi : ABI) : 0 < structAlign abi := by
  unfold structAlign; omega

theorem sizeofRequest_pos (abi : ABI) : 0 < sizeofRequest abi := by
  have h := le_alignUp (offsetNum2 abi + 8) (structAlign abi) (structAlign_pos abi)
  unfold sizeofRequest; omega

theorem sentResponses_append (xs ys : List Event) :
    sentResponses (xs ++ ys) = sentResponses xs ++ sentResponses ys := by
  induction xs with
  | nil => rfl
  | cons e es ih => cases e <;> simp [sentResponses, ih]

theorem sentResponses_tcp_switch (fpu : FPU) (r : CalculatorRequest) :
    sentResponses (handle_client_switch fpu r).2 = [] := by
  unfold handle_client_switch
  split_ifs <;> rfl

theorem sentResponses_udp_switch (fpu : FPU) (r : CalculatorRequest) :
    sentResponses (main_switch fpu r).2 = [] := by
  unfold main_switch
  split_ifs <;> rfl

/-- A full-size receive makes the TCP server transmit exactly the response
computed by its switch. -/
theorem tcp_replies_sized (abi : ABI) (fpu : FPU) (received : RecvResult) (sendRet : Int)
    (hsize : received.ret = sizeofRequest abi) :
    coi_server.replies abi fpu received sendRet
      = [(handle_client_switch fpu (receivedRequest abi received)).1] := by
  have hpos := sizeofRequest_pos abi
  unfold coi_server.replies handle_client_iter
  simp only [hsize]
  rw [if_neg (by omega), if_neg (by simp)]
  split_ifs <;>
    simp [sentResponses, sentResponses_append, sentResponses_tcp_switch]

/-- A full-size receive makes the UDP server transmit exactly the response
computed by its switch. -/
theorem udp_replies_sized (abi : ABI) (fpu : FPU) (received : RecvResult) (sendRet : Int)
    (hsize : received.ret = sizeofRequest abi) :
    calc_udp_server.replies abi fpu received sendRet
      = [(main_switch fpu (receivedRequest abi received)).1] := by
  unfold calc_udp_server.replies main_iter
  simp only [hsize]
  rw [if_neg (by omega), if_neg (by simp)]
  split_ifs <;>
    simp [sentResponses, sentResponses_append, sentResponses_udp_switch]

/-- The comparison `b == 0.0` holds exactly for the patterns of `+0.0` and
`-0.0`. -/
theorem eq_zero_iff (b : Double) (h : b.WF) :
    Double.eq b Double.zero = true ↔ (b.bits = 0 ∨ b.bits = 2 ^ 63) := by
  obtain ⟨n⟩ := b
  simp only [Double.WF] at h
  simp only [Double.eq, Double.isNaN, Double.isZero, Double.expField, Double.fracField,
    Double.zero]
  norm_num
  constructor
  · intro hx
    norm_num at h
    omega
  · intro hx
    rcases hx with hx | hx <;> subst hx <;> decide

theorem tcp_switch_divide_zero (fpu : FPU) (a z : Double)
    (hz : Double.eq z Double.zero = true) :
    (handle_client_switch fpu ⟨DIVIDE, a, z⟩).1 = ⟨-1, Double.zero⟩ := by
  simp [handle_client_switch, ADD, SUBTRACT, MULTIPLY, DIVIDE, hz]

theorem udp_switch_divide_zero (fpu : FPU) (a z : Double)
    (hz : Double.eq z Double.zero = true) :
    (main_switch fpu ⟨DIVIDE, a, z⟩).1 = ⟨-1, Double.zero⟩ := by
  simp [main_switch, ADD, SUBTRACT, MULTIPLY, DIVIDE, hz]

theorem tcp_switch_divide (fpu : FPU) (a b : Double)
    (hb : Double.eq b Double.zero = false) :
    (handle_client_switch fpu ⟨DIVIDE, a, b⟩).1 = ⟨0, fpu.fdiv a b⟩ := by
  simp [handle_client_switch, ADD, SUBTRACT, MULTIPLY, DIVIDE, hb, divide]

theorem udp_switch_divide (fpu : FPU) (a b : Double)
    (hb : Double.eq b Double.zero = false) :
    (main_switch fpu ⟨DIVIDE, a, b⟩).1 = ⟨0, fpu.fdiv a b⟩ := by
  simp [main_switch, ADD, SUBTRACT, MULTIPLY, DIVIDE, hb, divide]

theorem tcp_switch_invalid (fpu : FPU) (op : Int) (a b : Double)
    (h1 : op ≠ 1) (h2 : op ≠ 2) (h3 : op ≠ 3) (h4 : op ≠ 4) :
    (handle_client_switch fpu ⟨op, a, b⟩).1 = ⟨-1, Double.zero⟩ := by
  simp [handle_client_switch, ADD, SUBTRACT, MULTIPLY, DIVIDE, h1, h2, h3, h4]

theorem udp_switch_invalid (fpu : FPU) (op : Int) (a b : Double)
    (h1 : op ≠ 1) (h2 : op ≠ 2) (h3 : op ≠ 3) (h4 : op ≠ 4) :
    (main_switch fpu ⟨op, a, b⟩).1 = ⟨-1, Double.zero⟩ := by
  simp [main_switch, ADD, SUBTRACT, MULTIPLY, DIVIDE, h1, h2, h3, h4]

theorem tcp_switch_arith (fpu : FPU) (op : Int) (a b result : Double)
    (hres : (op = ADD ∧ result = add fpu a b) ∨ (op = SUBTRACT ∧ result = subtract fpu a b)
      ∨ (op = MULTIPLY ∧ result = multiply fpu a b)) :
    (handle_client_switch fpu ⟨op, a, b⟩).1 = ⟨0, result⟩ := by
  rcases hres with ⟨h, hr⟩ | ⟨h, hr⟩ | ⟨h, hr⟩ <;> subst h <;> subst hr <;>
    simp [handle_client_switch, ADD, SUBTRACT, MULTIPLY, DIVIDE]

theorem udp_switch_arith (fpu : FPU) (op : Int) (a b result : Double)
    (hres : (op = ADD ∧ result = add fpu a b) ∨ (op = SUBTRACT ∧ result = subtract fpu a b)
      ∨ (op = MULTIPLY ∧ result = multiply fpu a b)) :
    (main_switch fpu ⟨op, a, b⟩).1 = ⟨0, result⟩ := by
  rcases hres with ⟨h, hr⟩ | ⟨h, hr⟩ | ⟨h, hr⟩ <;> subst h <;> subst hr <;>
    simp [main_switch, ADD, SUBTRACT, MULTIPLY, DIVIDE]

/-- The response computed by the switch of the TCP server has status 0 or -1,
and result `0.0` when the status is not 0. -/
theorem tcp_switch_formed (fpu : FPU) (r : CalculatorRequest) :
    ((handle_client_switch fpu r).1.status = 0 ∨ (handle_client_switch fpu r).1.status = -1)
    ∧ ((handle_client_switch fpu r).1.status ≠ 0
        → (handle_client_switch fpu r).1.result = Double.zero) := by
  unfold handle_client_switch
  split_ifs <;> simp

/-- The response computed by the switch of the UDP server has status 0 or -1,
and result `0.0` when the status is not 0. -/
theorem udp_switch_formed (fpu : FPU) (r : CalculatorRequest) :
    ((main_switch fpu r).1.status = 0 ∨ (main_switch fpu r).1.status = -1)
    ∧ ((main_switch fpu r).1.status ≠ 0 → (main_switch fpu r).1.result = Double.zero) := by
  unfold main_switch
  split_ifs <;> simp

/-- What one iteration of the TCP server transmits: nothing, the error
response, or the response of the switch. -/
theorem tcp_replies_cases (abi : ABI) (fpu : FPU) (received : RecvResult) (sendRet : Int) :
    coi_server.replies abi fpu received sendRet = []
    ∨ coi_server.replies abi fpu received sendRet = [⟨-1, Double.zero⟩]
    ∨ coi_server.replies abi fpu received sendRet
        = [(handle_client_switch fpu (receivedRequest abi received)).1] := by
  unfold coi_server.replies handle_client_iter
  dsimp only
  by_cases h1 : received.ret ≤ 0
  · left
    rw [if_pos h1]
    by_cases h0 : received.ret = 0
    · rw [if_pos h0]; rfl
    · rw [if_neg h0]; rfl
  · rw [if_neg h1]
    by_cases h2 : received.ret = (sizeofRequest abi : Int)
    · right; right
      rw [if_neg (not_not_intro h2)]
      by_cases h3 : sendRet < 0
      · rw [if_pos h3]
        simp [sentResponses, sentResponses_append, sentResponses_tcp_switch]
      · rw [if_neg h3]
        simp [sentResponses, sentResponses_append, sentResponses_tcp_switch]
    · right; left
      rw [if_pos h2]; rfl

/-- What one iteration of the UDP server transmits: nothing, or the response
of the switch. -/
theorem udp_replies_cases (abi : ABI) (fpu : FPU) (received : RecvResult) (sendRet : Int) :
    calc_udp_server.replies abi fpu received sendRet = []
    ∨ calc_udp_server.replies abi fpu received sendRet
        = [(main_switch fpu (receivedRequest abi received)).1] := by
  unfold calc_udp_server.replies main_iter
  dsimp only
  by_cases h1 : received.ret < 0
  · left
    rw [if_pos h1]; rfl
  · rw [if_neg h1]
    by_cases h2 : received.ret = (sizeofRequest abi : Int)
    · right
      rw [if_neg (not_not_intro h2)]
      by_cases h3 : sendRet < 0
      · rw [if_pos h3]
        simp [sentResponses, sentResponses_append, sentResponses_udp_switch]
      · rw [if_neg h3]
        simp [sentResponses, sentResponses_append, sentResponses_udp_switch]
    · left
      rw [if_pos h2]; rfl

/-- The responses of a TCP session are those of its iterations. -/
theorem tcp_loop_sent (abi : ABI) (fpu : FPU) (inputs : List (RecvResult × Int))
    (resp : CalculatorResponse) (h : resp ∈ sentResponses (handle_client abi fpu inputs)) :
    ∃ received sendRet, resp ∈ coi_server.replies abi fpu received sendRet := by
  induction inputs with
  | nil => simp [handle_client, sentResponses] at h
  | cons x rest ih =>
    obtain ⟨received, sendRet⟩ := x
    unfold handle_client at h
    cases hit : handle_client_iter abi fpu received sendRet with
    | mk c events =>
      have hr : coi_server.replies abi fpu received sendRet = sentResponses events := by
        unfold coi_server.replies; rw [hit]
      rw [hit] at h
      cases c with
      | stop => exact ⟨received, sendRet, by rw [hr]; exact h⟩
      | next =>
        simp only [sentResponses_append, List.mem_append] at h
        rcases h with h | h
        · exact ⟨received, sendRet, by rw [hr]; exact h⟩
        · exact ih h

/-- The responses of the UDP serving loop are those of its iterations. -/
theorem udp_loop_sent (abi : ABI) (fpu : FPU) (inputs : List (RecvResult × Int))
    (resp : CalculatorResponse) (h : resp ∈ sentResponses (main_loop abi fpu inputs)) :
    ∃ received sendRet, resp ∈ calc_udp_server.replies abi fpu received sendRet := by
  induction inputs with
  | nil => simp [main_loop, sentResponses] at h
  | cons x rest ih =>
    obtain ⟨received, sendRet⟩ := x
    unfold main_loop at h
    cases hit : main_iter abi fpu received sendRet with
    | mk c events =>
      have hr : calc_udp_server.replies abi fpu received sendRet = sentResponses events := by
        unfold calc_udp_server.replies; rw [hit]
      rw [hit] at h
      cases c with
      | stop => exact ⟨received, sendRet, by rw [hr]; exact h⟩
      | next =>
        simp only [sentResponses_append, List.mem_append] at h
        rcases h with h | h
        · exact ⟨received, sendRet, by rw [hr]; exact h⟩
        · exact ih h

/-! ## Auxiliary facts on the byte images -/

theorem length_bytesLE (w n : Nat) : (bytesLE w n).length = w := by
  induction w generalizing n with
  | zero => rfl
  | succ w ih => simp [bytesLE, ih]

theorem ofBytesLE_bytesLE (w n : Nat) : ofBytesLE (bytesLE w n) = n % 256 ^ w := by
  induction w generalizing n with
  | zero => simp [bytesLE, ofBytesLE, Nat.mod_one]
  | succ w ih =>
    simp only [bytesLE, ofBytesLE, ih, Nat.mod_mod]
    rw [Nat.pow_succ, Nat.mul_comm (256 ^ w) 256, Nat.mod_mul]

theorem length_storeWord (abi : ABI) (w n : Nat) : (storeWord abi w n).length = w := by
  unfold storeWord
  split_ifs <;> simp [length_bytesLE]

theorem loadWord_storeWord (abi : ABI) (w n : Nat) :
    loadWord abi (storeWord abi w n) = n % 256 ^ w := by
  unfold loadWord storeWord
  split_ifs <;> simp [ofBytesLE_bytesLE]

theorem length_padding (junk : Nat → Nat) (off len : Nat) :
    (padding junk off len).length = len := by
  simp [padding]

theorem slice_head (xs ys : List Nat) (len : Nat) (h : xs.length = len) :
    slice (xs ++ ys) 0 len = xs := by
  subst h
  simp [slice]

theorem slice_skip (xs ys : List Nat) (off len : Nat) (h : xs.length ≤ off) :
    slice (xs ++ ys) off len = slice ys (off - xs.length) len := by
  unfold slice
  rw [List.drop_append_eq_append_drop, List.drop_eq_nil_of_le h, List.nil_append]

theorem wordToInt_intToWord (i : Int) (h1 : -2 ^ 31 ≤ i) (h2 : i < 2 ^ 31) :
    wordToInt (intToWord i) = i := by
  unfold wordToInt intToWord
  have h3 : (0 : Int) ≤ i % 2 ^ 32 := Int.emod_nonneg _ (by norm_num)
  have h4 : i % 2 ^ 32 < 2 ^ 32 := Int.emod_lt_of_pos _ (by norm_num)
  have h5 : ((i % 2 ^ 32).toNat : Int) = i % 2 ^ 32 := Int.toNat_of_nonneg h3
  have h6 : (i % 2 ^ 32).toNat % 2 ^ 32 = (i % 2 ^ 32).toNat := by
    apply Nat.mod_eq_of_lt
    omega
  rw [h6]
  split_ifs with h <;> omega

theorem le_offsetNum1 (abi : ABI) (h : 0 < abi.alignDouble) : 4 ≤ offsetNum1 abi :=
  le_alignUp 4 abi.alignDouble h

theorem le_offsetNum2 (abi : ABI) (h : 0 < abi.alignDouble) :
    offsetNum1 abi + 8 ≤ offsetNum2 abi :=
  le_alignUp (offsetNum1 abi + 8) abi.alignDouble h

theorem le_sizeofRequest (abi : ABI) : offsetNum2 abi + 8 ≤ sizeofRequest abi :=
  le_alignUp (offsetNum2 abi + 8) (structAlign abi) (structAlign_pos abi)

theorem le_offsetResult (abi : ABI) (h : 0 < abi.alignDouble) : 4 ≤ offsetResult abi :=
  le_alignUp 4 abi.alignDouble h

theorem le_sizeofResponse (abi : ABI) : offsetResult abi + 8 ≤ sizeofResponse abi :=
  le_alignUp (offsetResult abi + 8) (structAlign abi) (structAlign_pos abi)

theorem length_requestBytes (abi : ABI) (junk : Nat → Nat) (r : CalculatorRequest)
    (h : 0 < abi.alignDouble) : (requestBytes abi junk r).length = sizeofRequest abi := by
  have h1 := le_offsetNum1 abi h
  have h2 := le_offsetNum2 abi h
  have h3 := le_sizeofRequest abi
  simp only [requestBytes, List.length_append, length_storeWord, length_padding]
  omega

theorem length_responseBytes (abi : ABI) (junk : Nat → Nat) (r : CalculatorResponse)
    (h : 0 < abi.alignDouble) : (responseBytes abi junk r).length = sizeofResponse abi := by
  have h1 := le_offsetResult abi h
  have h3 := le_sizeofResponse abi
  simp only [responseBytes, List.length_append, length_storeWord, length_padding]
  omega

theorem requestOfBytes_requestBytes (abi : ABI) (junk : Nat → Nat) (r : CalculatorRequest)
    (h : 0 < abi.alignDouble) (hr : r.WF) :
    requestOfBytes abi (requestBytes abi junk r) = r := by
  have h1 := le_offsetNum1 abi h
  have h2 := le_offsetNum2 abi h
  obtain ⟨op, ⟨n1⟩, ⟨n2⟩⟩ := r
  obtain ⟨ho1, ho2, hn1, hn2⟩ := hr
  simp only [Double.WF] at hn1 hn2
  have e0 : slice (requestBytes abi junk ⟨op, ⟨n1⟩, ⟨n2⟩⟩) 0 4
      = storeWord abi 4 (intToWord op) := by
    unfold requestBytes
    exact slice_head _ _ 4 (length_storeWord abi 4 _)
  have e1 : slice (requestBytes abi junk ⟨op, ⟨n1⟩, ⟨n2⟩⟩) (offsetNum1 abi) 8
      = storeWord abi 8 n1 := by
    unfold requestBytes
    rw [slice_skip _ _ _ _ (by rw [length_storeWord]; exact h1), length_storeWord,
      slice_skip _ _ _ _ (by rw [length_padding]), length_padding, Nat.sub_self]
    exact slice_head _ _ 8 (length_storeWord abi 8 _)
  have e2 : slice (requestBytes abi junk ⟨op, ⟨n1⟩, ⟨n2⟩⟩) (offsetNum2 abi) 8
      = storeWord abi 8 n2 := by
    unfold requestBytes
    rw [slice_skip _ _ _ _ (by rw [length_storeWord]; omega), length_storeWord,
      slice_skip _ _ _ _ (by rw [length_padding]; omega), length_padding,
      slice_skip _ _ _ _ (by rw [length_storeWord]; omega), length_storeWord,
      slice_skip _ _ _ _ (by rw [length_padding]; omega), length_padding]
    have hz : offsetNum2 abi - 4 - (offsetNum1 abi - 4) - 8
        - (offsetNum2 abi - (offsetNum1 abi + 8)) = 0 := by omega
    rw [hz]
    exact slice_head _ _ 8 (length_storeWord abi 8 _)
  unfold requestOfBytes
  rw [e0, e1, e2, loadWord_storeWord, loadWord_storeWord, loadWord_storeWord]
  have hw : intToWord op % 256 ^ 4 = intToWord op := by
    apply Nat.mod_eq_of_lt
    unfold intToWord
    have h4 : op % 2 ^ 32 < 2 ^ 32 := Int.emod_lt_of_pos _ (by norm_num)
    have h3 : (0 : Int) ≤ op % 2 ^ 32 := Int.emod_nonneg _ (by norm_num)
    omega
  rw [hw, wordToInt_intToWord op ho1 ho2, Nat.mod_eq_of_lt (by norm_num; omega),
    Nat.mod_eq_of_lt (by norm_num; omega)]

theorem responseOfBytes_responseBytes (abi : ABI) (junk : Nat → Nat)
    (r : CalculatorResponse) (h : 0 < abi.alignDouble) (hr : r.WF) :
    responseOfBytes abi (responseBytes abi junk r) = r := by
  have h1 := le_offsetResult abi h
  obtain ⟨st, ⟨n1⟩⟩ := r
  obtain ⟨ho1, ho2, hn1⟩ := hr
  simp only [Double.WF] at hn1
  have e0 : slice (responseBytes abi junk ⟨st, ⟨n1⟩⟩) 0 4
      = storeWord abi 4 (intToWord st) := by
    unfold responseBytes
    exact slice_head _ _ 4 (length_storeWord abi 4 _)
  have e1 : slice (responseBytes abi junk ⟨st, ⟨n1⟩⟩) (offsetResult abi) 8
      = storeWord abi 8 n1 := by
    unfold responseBytes
    rw [slice_skip _ _ _ _ (by rw [length_storeWord]; exact h1), length_storeWord,
      slice_skip _ _ _ _ (by rw [length_padding]), length_padding, Nat.sub_self]
    exact slice_head _ _ 8 (length_storeWord abi 8 _)
  unfold responseOfBytes
  rw [e0, e1, loadWord_storeWord, loadWord_storeWord]
  have hw : intToWord st % 256 ^ 4 = intToWord st := by
    apply Nat.mod_eq_of_lt
    unfold intToWord
    have h4 : st % 2 ^ 32 < 2 ^ 32 := Int.emod_lt_of_pos _ (by norm_num)
    have h3 : (0 : Int) ≤ st % 2 ^ 32 := Int.emod_nonneg _ (by norm_num)
    omega
  rw [hw, wordToInt_intToWord st ho1 ho2, Nat.mod_eq_of_lt (by norm_num; omega)]

theorem recvInto_full (size : Nat) (data : List Nat) (h : data.length = size) :
    recvInto size data = data := by
  unfold recvInto
  subst h
  simp

/-! ## Auxiliary facts on wrong-size receives -/

/-- A TCP receive of a positive byte count other than the size of the request
is answered with the error response, without entering the switch, and the
loop goes on. -/
theorem tcp_iter_wrong_size (abi : ABI) (fpu : FPU) (received : RecvResult) (sendRet : Int)
    (hpos : 0 < received.ret) (hne : received.ret ≠ (sizeofRequest abi : Int)) :
    handle_client_iter abi fpu received sendRet
      = (.next, [.log (.incomplete (sizeofRequest abi) received.ret),
                 .send ⟨-1, Double.zero⟩]) := by
  unfold handle_client_iter
  dsimp only
  rw [if_neg (by omega), if_pos hne]

/-- A UDP receive of a non-negative byte count other than the size of the
request is logged and nothing else happens. -/
theorem udp_iter_wrong_size (abi : ABI) (fpu : FPU) (received : RecvResult) (sendRet : Int)
    (hpos : 0 ≤ received.ret) (hne : received.ret ≠ (sizeofRequest abi : Int)) :
    main_iter abi fpu received sendRet
      = (.next, [.log (.incomplete (sizeofRequest abi) received.ret)]) := by
  unfold main_iter
  dsimp only
  rw [if_neg (by omega), if_pos hne]

/-! ## The request handler -/

/-- C1: a correctly sized request `{DIVIDE, a, z}` whose divisor `z` compares
equal to `0.0` makes the TCP server and the UDP server transmit exactly the
response `{status = -1, result = 0.0}`, which is also what the switch of either
server computes for that request. -/
theorem divide_by_zero_response (abi : ABI) (fpu : FPU) (received : RecvResult)
    (sendRet : Int) (a z : Double)
    (hz : Double.eq z Double.zero = true)
    (hsize : received.ret = sizeofRequest abi)
    (hreq : receivedRequest abi received = ⟨DIVIDE, a, z⟩) :
    coi_server.replies abi fpu received sendRet = [⟨-1, Double.zero⟩]
    ∧ calc_udp_server.replies abi fpu received sendRet = [⟨-1, Double.zero⟩]
    ∧ (handle_client_switch fpu ⟨DIVIDE, a, z⟩).1 = ⟨-1, Double.zero⟩
    ∧ (main_switch fpu ⟨DIVIDE, a, z⟩).1 = ⟨-1, Double.zero⟩ := by
  refine ⟨?_, ?_, tcp_switch_divide_zero fpu a z hz, udp_switch_divide_zero fpu a z hz⟩
  · rw [tcp_replies_sized abi fpu received sendRet hsize, hreq,
      tcp_switch_divide_zero fpu a z hz]
  · rw [udp_replies_sized abi fpu received sendRet hsize, hreq,
      udp_switch_divide_zero fpu a z hz]

/-- Witness for C1: the request Divide 10.0 0.0 received in full on x86-64. -/
theorem divide_by_zero_response_witness :
    coi_server.replies x86_64 ieee754 (fullRecv ⟨DIVIDE, d10, Double.zero⟩) 16
      = [⟨-1, Double.zero⟩]
    ∧ calc_udp_server.replies x86_64 ieee754 (fullRecv ⟨DIVIDE, d10, Double.zero⟩) 16
      = [⟨-1, Double.zero⟩]
    ∧ (handle_client_switch ieee754 ⟨DIVIDE, d10, Double.zero⟩).1 = ⟨-1, Double.zero⟩
    ∧ (main_switch ieee754 ⟨DIVIDE, d10, Double.zero⟩).1 = ⟨-1, Double.zero⟩ :=
  divide_by_zero_response x86_64 ieee754 (fullRecv ⟨DIVIDE, d10, Double.zero⟩) 16 d10
    Double.zero (by decide) (by decide) (by decide)

/-- C2: a correctly sized request `{DIVIDE, a, b}` whose divisor `b` does not
compare equal to `0.0` makes both servers transmit exactly the response
`{status = 0, result = a / b}`, the quotient being the one the machine
computes. -/
theorem divide_response (abi : ABI) (fpu : FPU) (received : RecvResult)
    (sendRet : Int) (a b : Double)
    (hb : Double.eq b Double.zero = false)
    (hsize : received.ret = sizeofRequest abi)
    (hreq : receivedRequest abi received = ⟨DIVIDE, a, b⟩) :
    coi_server.replies abi fpu received sendRet = [⟨0, fpu.fdiv a b⟩]
    ∧ calc_udp_server.replies abi fpu received sendRet = [⟨0, fpu.fdiv a b⟩]
    ∧ (handle_client_switch fpu ⟨DIVIDE, a, b⟩).1 = ⟨0, fpu.fdiv a b⟩
    ∧ (main_switch fpu ⟨DIVIDE, a, b⟩).1 = ⟨0, fpu.fdiv a b⟩ := by
  refine ⟨?_, ?_, tcp_switch_divide fpu a b hb, udp_switch_divide fpu a b hb⟩
  · rw [tcp_replies_sized abi fpu received sendRet hsize, hreq,
      tcp_switch_divide fpu a b hb]
  · rw [udp_replies_sized abi fpu received sendRet hsize, hreq,
      udp_switch_divide fpu a b hb]

/-- Witness for C2: the request Divide 10.0 2.0 received in full on x86-64;
the quotient is 5.0. -/
theorem divide_response_witness :
    ieee754.fdiv d10 d2 = d5
    ∧ coi_server.replies x86_64 ieee754 (fullRecv ⟨DIVIDE, d10, d2⟩) 16
      = [⟨0, ieee754.fdiv d10 d2⟩]
    ∧ calc_udp_server.replies x86_64 ieee754 (fullRecv ⟨DIVIDE, d10, d2⟩) 16
      = [⟨0, ieee754.fdiv d10 d2⟩]
    ∧ (handle_client_switch ieee754 ⟨DIVIDE, d10, d2⟩).1 = ⟨0, ieee754.fdiv d10 d2⟩
    ∧ (main_switch ieee754 ⟨DIVIDE, d10, d2⟩).1 = ⟨0, ieee754.fdiv d10 d2⟩ :=
  ⟨by decide, divide_response x86_64 ieee754 (fullRecv ⟨DIVIDE, d10, d2⟩) 16 d10 d2
    (by decide) (by decide) (by decide)⟩

/-- C3: a correctly sized request `{op, a, b}` with `op` one of ADD, SUBTRACT,
MULTIPLY makes both servers transmit exactly the response with status 0 and
result `add(a, b)`, `subtract(a, b)` or `multiply(a, b)` respectively, and these
are the machine's `a + b`, `a - b` and `a * b`. -/
theorem arithmetic_response (abi : ABI) (fpu : FPU) (received : RecvResult)
    (sendRet : Int) (op : Int) (a b result : Double)
    (hres : (op = ADD ∧ result = add fpu a b) ∨ (op = SUBTRACT ∧ result = subtract fpu a b)
      ∨ (op = MULTIPLY ∧ result = multiply fpu a b))
    (hsize : received.ret = sizeofRequest abi)
    (hreq : receivedRequest abi received = ⟨op, a, b⟩) :
    coi_server.replies abi fpu received sendRet = [⟨0, result⟩]
    ∧ calc_udp_server.replies abi fpu received sendRet = [⟨0, result⟩]
    ∧ (handle_client_switch fpu ⟨op, a, b⟩).1 = ⟨0, result⟩
    ∧ (main_switch fpu ⟨op, a, b⟩).1 = ⟨0, result⟩
    ∧ add fpu a b = fpu.fadd a b ∧ subtract fpu a b = fpu.fsub a b
    ∧ multiply fpu a b = fpu.fmul a b := by
  refine ⟨?_, ?_, tcp_switch_arith fpu op a b result hres,
    udp_switch_arith fpu op a b result hres, rfl, rfl, rfl⟩
  · rw [tcp_replies_sized abi fpu received sendRet hsize, hreq,
      tcp_switch_arith fpu op a b result hres]
  · rw [udp_replies_sized abi fpu received sendRet hsize, hreq,
      udp_switch_arith fpu op a b result hres]

/-- Witness for C3: the request Add 2.0 3.0 received in full on x86-64 is
answered with status 0 and result 5.0. -/
theorem arithmetic_response_witness :
    coi_server.replies x86_64 ieee754 (fullRecv reqAdd) 16 = [⟨0, d5⟩]
    ∧ calc_udp_server.replies x86_64 ieee754 (fullRecv reqAdd) 16 = [⟨0, d5⟩]
    ∧ (handle_client_switch ieee754 ⟨ADD, d2, d3⟩).1 = ⟨0, d5⟩
    ∧ (main_switch ieee754 ⟨ADD, d2, d3⟩).1 = ⟨0, d5⟩
    ∧ add ieee754 d2 d3 = ieee754.fadd d2 d3 ∧ subtract ieee754 d2 d3 = ieee754.fsub d2 d3
    ∧ multiply ieee754 d2 d3 = ieee754.fmul d2 d3 :=
  arithmetic_response x86_64 ieee754 (fullRecv reqAdd) 16 ADD d2 d3 d5
    (Or.inl ⟨rfl, by decide⟩) (by decide) (by decide)

/-- C4: a correctly sized request whose operation code is an integer other
than 1, 2, 3 and 4 (zero and the negative integers included) makes both
servers transmit exactly the response `{status = -1, result = 0.0}`, whatever
`num1` and `num2` are. -/
theorem invalid_operation_response (abi : ABI) (fpu : FPU) (received : RecvResult)
    (sendRet : Int) (op : Int) (a b : Double)
    (hop : op ≠ 1 ∧ op ≠ 2 ∧ op ≠ 3 ∧ op ≠ 4)
    (hsize : received.ret = sizeofRequest abi)
    (hreq : receivedRequest abi received = ⟨op, a, b⟩) :
    coi_server.replies abi fpu received sendRet = [⟨-1, Double.zero⟩]
    ∧ calc_udp_server.replies abi fpu received sendRet = [⟨-1, Double.zero⟩]
    ∧ (handle_client_switch fpu ⟨op, a, b⟩).1 = ⟨-1, Double.zero⟩
    ∧ (main_switch fpu ⟨op, a, b⟩).1 = ⟨-1, Double.zero⟩ := by
  obtain ⟨h1, h2, h3, h4⟩ := hop
  refine ⟨?_, ?_, tcp_switch_invalid fpu op a b h1 h2 h3 h4,
    udp_switch_invalid fpu op a b h1 h2 h3 h4⟩
  · rw [tcp_replies_sized abi fpu received sendRet hsize, hreq,
      tcp_switch_invalid fpu op a b h1 h2 h3 h4]
  · rw [udp_replies_sized abi fpu received sendRet hsize, hreq,
      udp_switch_invalid fpu op a b h1 h2 h3 h4]

/-- Witness for C4: the operation codes -7 and 0 with operands 2.0 and 3.0,
received in full on x86-64. -/
theorem invalid_operation_response_witness :
    (coi_server.replies x86_64 ieee754 (fullRecv ⟨-7, d2, d3⟩) 16 = [⟨-1, Double.zero⟩]
      ∧ calc_udp_server.replies x86_64 ieee754 (fullRecv ⟨-7, d2, d3⟩) 16
        = [⟨-1, Double.zero⟩]
      ∧ (handle_client_switch ieee754 ⟨-7, d2, d3⟩).1 = ⟨-1, Double.zero⟩
      ∧ (main_switch ieee754 ⟨-7, d2, d3⟩).1 = ⟨-1, Double.zero⟩)
    ∧ (coi_server.replies x86_64 ieee754 (fullRecv ⟨0, d2, d3⟩) 16 = [⟨-1, Double.zero⟩]
      ∧ calc_udp_server.replies x86_64 ieee754 (fullRecv ⟨0, d2, d3⟩) 16
        = [⟨-1, Double.zero⟩]
      ∧ (handle_client_switch ieee754 ⟨0, d2, d3⟩).1 = ⟨-1, Double.zero⟩
      ∧ (main_switch ieee754 ⟨0, d2, d3⟩).1 = ⟨-1, Double.zero⟩) :=
  ⟨invalid_operation_response x86_64 ieee754 (fullRecv ⟨-7, d2, d3⟩) 16 (-7) d2 d3
      (by decide) (by decide) (by decide),
   invalid_operation_response x86_64 ieee754 (fullRecv ⟨0, d2, d3⟩) 16 0 d2 d3
      (by decide) (by decide) (by decide)⟩

/-- C5: every response transmitted during a TCP session or by the UDP serving
loop, whatever is received and whatever the sends return, has status 0 or -1,
and has result `0.0` whenever its status is not 0. -/
theorem responses_fully_formed (abi : ABI) (fpu : FPU) (inputs : List (RecvResult × Int))
    (resp : CalculatorResponse)
    (h : resp ∈ sentResponses (handle_client abi fpu inputs)
      ∨ resp ∈ sentResponses (main_loop abi fpu inputs)) :
    (resp.status = 0 ∨ resp.status = -1) ∧ (resp.status ≠ 0 → resp.result = Double.zero) := by
  rcases h with h | h
  · obtain ⟨received, sendRet, hmem⟩ := tcp_loop_sent abi fpu inputs resp h
    rcases tcp_replies_cases abi fpu received sendRet with hc | hc | hc <;>
      rw [hc] at hmem <;> simp at hmem
    · subst hmem; simp
    · subst hmem; exact tcp_switch_formed fpu _
  · obtain ⟨received, sendRet, hmem⟩ := udp_loop_sent abi fpu inputs resp h
    rcases udp_replies_cases abi fpu received sendRet with hc | hc <;>
      rw [hc] at hmem <;> simp at hmem
    subst hmem; exact udp_switch_formed fpu _

/-- Witness for C5: a TCP session on x86-64 that receives 3 stray bytes and
then the request Divide 10.0 0.0 transmits the error response twice, and that
response is fully formed. -/
theorem responses_fully_formed_witness :
    sentResponses (handle_client x86_64 ieee754
        [(⟨3, [1, 2, 3]⟩, 16), (fullRecv ⟨DIVIDE, d10, Double.zero⟩, 16)])
      = [⟨-1, Double.zero⟩, ⟨-1, Double.zero⟩]
    ∧ ((-1 : Int) = 0 ∨ (-1 : Int) = -1) ∧ ((-1 : Int) ≠ 0 → Double.zero = Double.zero) :=
  ⟨by decide, responses_fully_formed x86_64 ieee754
    [(⟨3, [1, 2, 3]⟩, 16), (fullRecv ⟨DIVIDE, d10, Double.zero⟩, 16)]
    ⟨-1, Double.zero⟩ (Or.inl (by decide))⟩

/-- C6: for a divisor `b` that is a 64-bit pattern, `b == 0.0` holds exactly
when `b` is `+0.0` or `-0.0`; `divide(a, b)` returns `0.0` in that case and the
machine's `a / b` for every other `b`, NaNs and infinities included. -/
theorem divide_total (fpu : FPU) (a b : Double) (hb : b.WF) :
    (Double.eq b Double.zero = true ↔ (b = Double.zero ∨ b = negZero))
    ∧ (b = Double.zero ∨ b = negZero → divide fpu a b = Double.zero)
    ∧ (b ≠ Double.zero ∧ b ≠ negZero → divide fpu a b = fpu.fdiv a b) := by
  have hiff : Double.eq b Double.zero = true ↔ (b = Double.zero ∨ b = negZero) := by
    rw [eq_zero_iff b hb]
    obtain ⟨n⟩ := b
    simp [Double.zero, negZero]
  refine ⟨hiff, ?_, ?_⟩
  · intro h
    unfold divide
    rw [if_pos (hiff.mpr h)]
  · intro h
    unfold divide
    rw [if_neg]
    intro hz
    rcases hiff.mp hz with h0 | h0
    · exact h.1 h0
    · exact h.2 h0

/-- Witness for C6: `divide(10.0, -0.0)` is `0.0` and `divide(10.0, 2.0)` is
the quotient. -/
theorem divide_total_witness :
    divide ieee754 d10 negZero = Double.zero ∧ divide ieee754 d10 d2 = ieee754.fdiv d10 d2 :=
  ⟨(divide_total ieee754 d10 negZero (by decide)).2.1 (Or.inr rfl),
   (divide_total ieee754 d10 d2 (by decide)).2.2 ⟨by decide, by decide⟩⟩

/-! ## The wire records -/

/-- C7: on every platform (any positive alignment of `double`, either byte
order, any content of the padding bytes), the bytes of a request object are
`sizeof(CalculatorRequest)` many and reading them back as a request, directly
or through a full-size receive into a cleared buffer, gives the same
operation, num1 and num2; likewise the bytes of a response object are
`sizeof(CalculatorResponse)` many and give back the same status and result. -/
theorem wire_round_trip (abi : ABI) (junk : Nat → Nat) (req : CalculatorRequest)
    (resp : CalculatorResponse) (habi : 0 < abi.alignDouble) (hreq : req.WF)
    (hresp : resp.WF) :
    (requestBytes abi junk req).length = sizeofRequest abi
    ∧ requestOfBytes abi (requestBytes abi junk req) = req
    ∧ receivedRequest abi ⟨sizeofRequest abi, requestBytes abi junk req⟩ = req
    ∧ (responseBytes abi junk resp).length = sizeofResponse abi
    ∧ responseOfBytes abi (responseBytes abi junk resp) = resp := by
  refine ⟨length_requestBytes abi junk req habi,
    requestOfBytes_requestBytes abi junk req habi hreq, ?_,
    length_responseBytes abi junk resp habi,
    responseOfBytes_responseBytes abi junk resp habi hresp⟩
  unfold receivedRequest
  rw [recvInto_full _ _ (length_requestBytes abi junk req habi)]
  exact requestOfBytes_requestBytes abi junk req habi hreq

/-- Witness for C7: the request Add 2.0 3.0 and the response (-1, 0.0) on a
big-endian platform with 8-byte aligned doubles. -/
theorem wire_round_trip_witness :
    (requestBytes ⟨8, true⟩ (fun i => i) reqAdd).length = sizeofRequest ⟨8, true⟩
    ∧ requestOfBytes ⟨8, true⟩ (requestBytes ⟨8, true⟩ (fun i => i) reqAdd) = reqAdd
    ∧ receivedRequest ⟨8, true⟩
        ⟨sizeofRequest ⟨8, true⟩, requestBytes ⟨8, true⟩ (fun i => i) reqAdd⟩ = reqAdd
    ∧ (responseBytes ⟨8, true⟩ (fun i => i) ⟨-1, Double.zero⟩).length
        = sizeofResponse ⟨8, true⟩
    ∧ responseOfBytes ⟨8, true⟩ (responseBytes ⟨8, true⟩ (fun i => i) ⟨-1, Double.zero⟩)
        = ⟨-1, Double.zero⟩ :=
  wire_round_trip ⟨8, true⟩ (fun i => i) reqAdd ⟨-1, Double.zero⟩
    (by decide) (by decide) (by decide)

/-- Counterexample to C8: on x86-64 `sizeof(CalculatorRequest)` is 24 and
`sizeof(CalculatorResponse)` is 16, not the sums 20 and 12 of the member
widths; `num1` and `result` start at offset 8, not 4; and the TCP server treats
a receive of 20 bytes as a framing error. -/
theorem sizeof_counterexample :
    sizeofRequest x86_64 = 24 ∧ sizeofRequest x86_64 ≠ 4 + 2 * 8
    ∧ sizeofResponse x86_64 = 16 ∧ sizeofResponse x86_64 ≠ 4 + 8
    ∧ offsetNum1 x86_64 = 8 ∧ offsetResult x86_64 = 8
    ∧ handle_client_iter x86_64 ieee754 ⟨20, (fullRecv reqAdd).data.take 20⟩ 16
        = (.next, [.log (.incomplete 24 20), .send ⟨-1, Double.zero⟩]) := by
  decide

/-- C8, amended: the sizes follow the struct layout of the platform. Where a
`double` member is aligned at 4 bytes the records have no padding:
`sizeof(CalculatorRequest)` is 20 with the members at offsets 0, 4, 12 and
`sizeof(CalculatorResponse)` is 12 with the members at offsets 0, 4. Where a
`double` member is aligned at 8 bytes, 4 padding bytes follow the first member:
the sizes are 24 and 16, the members at offsets 0, 8, 16 and 0, 8. In both
cases a request object has exactly `sizeof(CalculatorRequest)` bytes and a
response object `sizeof(CalculatorResponse)` bytes. -/
theorem sizeof_by_alignment (abi : ABI) (junk : Nat → Nat) (req : CalculatorRequest)
    (resp : CalculatorResponse) :
    (abi.alignDouble = 4 →
      sizeofRequest abi = 4 + 2 * 8 ∧ offsetNum1 abi = 4 ∧ offsetNum2 abi = 12
      ∧ sizeofResponse abi = 4 + 8 ∧ offsetResult abi = 4
      ∧ (requestBytes abi junk req).length = 20 ∧ (responseBytes abi junk resp).length = 12)
    ∧ (abi.alignDouble = 8 →
      sizeofRequest abi = 4 + 4 + 2 * 8 ∧ offsetNum1 abi = 8 ∧ offsetNum2 abi = 16
      ∧ sizeofResponse abi = 4 + 4 + 8 ∧ offsetResult abi = 8
      ∧ (requestBytes abi junk req).length = 24
      ∧ (responseBytes abi junk resp).length = 16) := by
  constructor
  · intro h
    have hl := length_requestBytes abi junk req (by omega)
    have hr := length_responseBytes abi junk resp (by omega)
    have e1 : offsetNum1 abi = 4 := by simp [offsetNum1, alignUp, h]
    have e2 : offsetNum2 abi = 12 := by simp [offsetNum2, alignUp, e1, h]
    have e3 : sizeofRequest abi = 20 := by simp [sizeofRequest, structAlign, alignUp, e2, h]
    have e4 : offsetResult abi = 4 := by simp [offsetResult, alignUp, h]
    have e5 : sizeofResponse abi = 12 := by
      simp [sizeofResponse, structAlign, alignUp, e4, h]
    exact ⟨e3, e1, e2, e5, e4, by rw [hl, e3], by rw [hr, e5]⟩
  · intro h
    have hl := length_requestBytes abi junk req (by omega)
    have hr := length_responseBytes abi junk resp (by omega)
    have e1 : offsetNum1 abi = 8 := by simp [offsetNum1, alignUp, h]
    have e2 : offsetNum2 abi = 16 := by simp [offsetNum2, alignUp, e1, h]
    have e3 : sizeofRequest abi = 24 := by simp [sizeofRequest, structAlign, alignUp, e2, h]
    have e4 : offsetResult abi = 8 := by simp [offsetResult, alignUp, h]
    have e5 : sizeofResponse abi = 16 := by
      simp [sizeofResponse, structAlign, alignUp, e4, h]
    exact ⟨e3, e1, e2, e5, e4, by rw [hl, e3], by rw [hr, e5]⟩

/-- Witness for C8, amended: the sizes on i386 and on x86-64. -/
theorem sizeof_by_alignment_witness :
    (sizeofRequest i386 = 4 + 2 * 8 ∧ offsetNum1 i386 = 4 ∧ offsetNum2 i386 = 12
      ∧ sizeofResponse i386 = 4 + 8 ∧ offsetResult i386 = 4
      ∧ (requestBytes i386 (fun _ => 0) reqAdd).length = 20
      ∧ (responseBytes i386 (fun _ => 0) ⟨0, d5⟩).length = 12)
    ∧ (sizeofRequest x86_64 = 4 + 4 + 2 * 8 ∧ offsetNum1 x86_64 = 8 ∧ offsetNum2 x86_64 = 16
      ∧ sizeofResponse x86_64 = 4 + 4 + 8 ∧ offsetResult x86_64 = 8
      ∧ (requestBytes x86_64 (fun _ => 0) reqAdd).length = 24
      ∧ (responseBytes x86_64 (fun _ => 0) ⟨0, d5⟩).length = 16) :=
  ⟨(sizeof_by_alignment i386 (fun _ => 0) reqAdd ⟨0, d5⟩).1 rfl,
   (sizeof_by_alignment x86_64 (fun _ => 0) reqAdd ⟨0, d5⟩).2 rfl⟩

/-! ## Wrong-size receives -/

/-- C9: when `recv` returns a positive byte count other than
`sizeof(CalculatorRequest)`, the iteration of `handle_client` prints the
warning and transmits the response `{status = -1, result = 0.0}` and does
nothing else (no call into the arithmetic unit, no message of the switch), and
the session goes on with the next receive, whatever `send` returned. -/
theorem tcp_framing_error (abi : ABI) (fpu : FPU) (received : RecvResult) (sendRet : Int)
    (rest : List (RecvResult × Int))
    (hpos : 0 < received.ret) (hne : received.ret ≠ (sizeofRequest abi : Int)) :
    handle_client_iter abi fpu received sendRet
      = (.next, [.log (.incomplete (sizeofRequest abi) received.ret),
                 .send ⟨-1, Double.zero⟩])
    ∧ coi_server.replies abi fpu received sendRet = [⟨-1, Double.zero⟩]
    ∧ (handle_client_iter abi fpu received sendRet).2.all (fun e => !e.isCall) = true
    ∧ handle_client abi fpu ((received, sendRet) :: rest)
      = [.log (.incomplete (sizeofRequest abi) received.ret), .send ⟨-1, Double.zero⟩]
        ++ handle_client abi fpu rest := by
  have h := tcp_iter_wrong_size abi fpu received sendRet hpos hne
  refine ⟨h, ?_, ?_, ?_⟩
  · unfold coi_server.replies
    rw [h]; rfl
  · rw [h]; rfl
  · rw [handle_client, h]

/-- Witness for C9: 3 bytes received on x86-64, then the request Add 2.0 3.0;
the failing `send` of the error response does not end the session. -/
theorem tcp_framing_error_witness :
    handle_client_iter x86_64 ieee754 ⟨3, [1, 2, 3]⟩ (-1)
      = (.next, [.log (.incomplete (sizeofRequest x86_64) 3), .send ⟨-1, Double.zero⟩])
    ∧ coi_server.replies x86_64 ieee754 ⟨3, [1, 2, 3]⟩ (-1) = [⟨-1, Double.zero⟩]
    ∧ (handle_client_iter x86_64 ieee754 ⟨3, [1, 2, 3]⟩ (-1)).2.all (fun e => !e.isCall)
      = true
    ∧ handle_client x86_64 ieee754 ((⟨3, [1, 2, 3]⟩, -1) :: [(fullRecv reqAdd, 16)])
      = [.log (.incomplete (sizeofRequest x86_64) 3), .send ⟨-1, Double.zero⟩]
        ++ handle_client x86_64 ieee754 [(fullRecv reqAdd, 16)] :=
  tcp_framing_error x86_64 ieee754 ⟨3, [1, 2, 3]⟩ (-1) [(fullRecv reqAdd, 16)]
    (by decide) (by decide)

/-- Counterexample to C10: a datagram of 25 bytes, one more than
`sizeof(CalculatorRequest)` on x86-64, whose first 24 bytes are the request
Add 2.0 3.0. `recvfrom` stores 24 bytes and returns 24, so the UDP server calls
`add` and transmits the response (0, 5.0). -/
theorem udp_oversized_counterexample :
    oversized.length = 25 ∧ sizeofRequest x86_64 = 24
    ∧ recvfrom (sizeofRequest x86_64) oversized = fullRecv reqAdd
    ∧ main_iter x86_64 ieee754 (recvfrom (sizeofRequest x86_64) oversized) 16
      = (.next, [.log (.received reqAdd), .call .add d2 d3, .send ⟨0, d5⟩,
                 .log (.sent ⟨0, d5⟩)]) := by
  decide

/-- C10, amended: for every incoming datagram shorter than
`sizeof(CalculatorRequest)`, and generally whenever `recvfrom` returns a
non-negative count other than that size, the iteration of the UDP server
prints the warning and does nothing else (no reply, no call into the
arithmetic unit), and the loop goes on to the next receive. -/
theorem udp_short_datagram (abi : ABI) (fpu : FPU) (datagram : List Nat) (sendRet : Int)
    (rest : List (RecvResult × Int)) (hshort : datagram.length < sizeofRequest abi) :
    main_iter abi fpu (recvfrom (sizeofRequest abi) datagram) sendRet
      = (.next, [.log (.incomplete (sizeofRequest abi) datagram.length)])
    ∧ calc_udp_server.replies abi fpu (recvfrom (sizeofRequest abi) datagram) sendRet = []
    ∧ (main_iter abi fpu (recvfrom (sizeofRequest abi) datagram) sendRet).2.all
        (fun e => !e.isCall) = true
    ∧ main_loop abi fpu ((recvfrom (sizeofRequest abi) datagram, sendRet) :: rest)
      = [.log (.incomplete (sizeofRequest abi) datagram.length)] ++ main_loop abi fpu rest
    ∧ (∀ received : RecvResult, 0 ≤ received.ret → received.ret ≠ (sizeofRequest abi : Int) →
        main_iter abi fpu received sendRet
          = (.next, [.log (.incomplete (sizeofRequest abi) received.ret)])) := by
  have hret : (recvfrom (sizeofRequest abi) datagram).ret = (datagram.length : Int) := by
    unfold recvfrom
    simp only
    rw [Nat.min_eq_left (Nat.le_of_lt hshort)]
  have h := udp_iter_wrong_size abi fpu (recvfrom (sizeofRequest abi) datagram) sendRet
    (by rw [hret]; omega) (by rw [hret]; omega)
  rw [hret] at h
  refine ⟨h, ?_, ?_, ?_, fun received h0 hne => udp_iter_wrong_size abi fpu received sendRet h0 hne⟩
  · unfold calc_udp_server.replies
    rw [h]; rfl
  · rw [h]; rfl
  · rw [main_loop, h]

/-- Witness for C10, amended: a datagram of 3 bytes on x86-64. -/
theorem udp_short_datagram_witness :
    main_iter x86_64 ieee754 (recvfrom (sizeofRequest x86_64) [1, 2, 3]) 16
      = (.next, [.log (.incomplete (sizeofRequest x86_64) 3)])
    ∧ calc_udp_server.replies x86_64 ieee754 (recvfrom (sizeofRequest x86_64) [1, 2, 3]) 16
      = [] :=
  ⟨(udp_short_datagram x86_64 ieee754 [1, 2, 3] 16 [] (by decide)).1,
   (udp_short_datagram x86_64 ieee754 [1, 2, 3] 16 [] (by decide)).2.1⟩

/-! ## Auxiliary facts on the loop bodies -/

theorem storeAt_replicate (n : Nat) (data : List Nat) :
    storeAt (List.replicate n 0) data = recvInto n data := by
  unfold storeAt recvInto
  rw [List.take_append_eq_append_take]
  simp

theorem tcp_assign_eq_switch (fpu : FPU) (request : CalculatorRequest)
    (response : CalculatorResponse) :
    handle_client_assign fpu request response = handle_client_switch fpu request := by
  unfold handle_client_assign handle_client_switch
  rfl

theorem udp_assign_eq_switch (fpu : FPU) (request : CalculatorRequest)
    (response : CalculatorResponse) :
    main_assign fpu request response = main_switch fpu request := by
  unfold main_assign main_switch
  rfl

/-- The switches of the two servers compute the same response and make the
same calls. -/
theorem tcp_switch_eq_udp_switch (fpu : FPU) (request : CalculatorRequest) :
    handle_client_switch fpu request = main_switch fpu request := by
  unfold handle_client_switch main_switch
  rfl

/-- The loop body of the TCP server does not depend on the values its local
variables hold on entry: its control and its events are those of
`handle_client_iter`. -/
theorem tcp_body_eq_iter (abi : ABI) (fpu : FPU) (locals : Locals) (received : RecvResult)
    (sendRet : Int) :
    (handle_client_body abi fpu locals received sendRet).1
        = (handle_client_iter abi fpu received sendRet).1
    ∧ (handle_client_body abi fpu locals received sendRet).2.2
        = (handle_client_iter abi fpu received sendRet).2 := by
  unfold handle_client_body handle_client_iter receivedRequest
  dsimp only
  rw [storeAt_replicate, tcp_assign_eq_switch]
  by_cases h1 : received.ret ≤ 0
  · rw [if_pos h1, if_pos h1]
    by_cases h0 : received.ret = 0
    · rw [if_pos h0, if_pos h0]; exact ⟨rfl, rfl⟩
    · rw [if_neg h0, if_neg h0]; exact ⟨rfl, rfl⟩
  · rw [if_neg h1, if_neg h1]
    by_cases h2 : received.ret ≠ (sizeofRequest abi : Int)
    · rw [if_pos h2, if_pos h2]; exact ⟨rfl, rfl⟩
    · rw [if_neg h2, if_neg h2]
      by_cases h3 : sendRet < 0
      · rw [if_pos h3, if_pos h3]; exact ⟨rfl, rfl⟩
      · rw [if_neg h3, if_neg h3]; exact ⟨rfl, rfl⟩

/-- The loop body of the UDP server does not depend on the values its local
variables hold on entry: its control and its events are those of
`main_iter`. -/
theorem udp_body_eq_iter (abi : ABI) (fpu : FPU) (locals : Locals) (received : RecvResult)
    (sendRet : Int) :
    (main_body abi fpu locals received sendRet).1 = (main_iter abi fpu received sendRet).1
    ∧ (main_body abi fpu locals received sendRet).2.2
        = (main_iter abi fpu received sendRet).2 := by
  unfold main_body main_iter receivedRequest
  dsimp only
  rw [storeAt_replicate, udp_assign_eq_switch]
  by_cases h1 : received.ret < 0
  · rw [if_pos h1, if_pos h1]; exact ⟨rfl, rfl⟩
  · rw [if_neg h1, if_neg h1]
    by_cases h2 : received.ret ≠ (sizeofRequest abi : Int)
    · rw [if_pos h2, if_pos h2]; exact ⟨rfl, rfl⟩
    · rw [if_neg h2, if_neg h2]
      by_cases h3 : sendRet < 0
      · rw [if_pos h3, if_pos h3]; exact ⟨rfl, rfl⟩
      · rw [if_neg h3, if_neg h3]; exact ⟨rfl, rfl⟩

/-- The control and the events of an iteration of the TCP server on a receive
whose byte count is not the size of the request, as a function of the count. -/
theorem tcp_iter_off_size (abi : ABI) (fpu : FPU) (received : RecvResult) (sendRet : Int)
    (hne : received.ret ≠ (sizeofRequest abi : Int)) :
    handle_client_iter abi fpu received sendRet
      = (if received.ret ≤ 0 then
          (if received.ret = 0 then (.stop, [.log .disconnected])
           else (.stop, [.log .recvFailed]))
         else (.next, [.log (.incomplete (sizeofRequest abi) received.ret),
                       .send ⟨-1, Double.zero⟩])) := by
  unfold handle_client_iter
  dsimp only
  rw [if_pos hne]

/-- The control and the events of an iteration of the UDP server on a receive
whose byte count is not the size of the request, as a function of the count. -/
theorem udp_iter_off_size (abi : ABI) (fpu : FPU) (received : RecvResult) (sendRet : Int)
    (hne : received.ret ≠ (sizeofRequest abi : Int)) :
    main_iter abi fpu received sendRet
      = (if received.ret < 0 then (.next, [.log .recvFailed])
         else (.next, [.log (.incomplete (sizeofRequest abi) received.ret)])) := by
  unfold main_iter
  dsimp only
  rw [if_pos hne]

/-! ## The serving loops -/

/-- C11: for two receives of the same byte count `n`, other than
`sizeof(CalculatorRequest)`, with arbitrary bytes in the buffer (and whatever
the local variables held before and whatever `send`/`sendto` would return),
the TCP server does the same thing on both (same messages, same reply, same
decision to go on or stop) and so does the UDP server: what happens depends on
`n` only. -/
theorem wrong_size_ignores_content (abi : ABI) (fpu : FPU) (n : Int)
    (data1 data2 : List Nat) (sendRet1 sendRet2 : Int) (locals1 locals2 : Locals)
    (hn : n ≠ (sizeofRequest abi : Int)) :
    handle_client_iter abi fpu ⟨n, data1⟩ sendRet1
      = handle_client_iter abi fpu ⟨n, data2⟩ sendRet2
    ∧ main_iter abi fpu ⟨n, data1⟩ sendRet1 = main_iter abi fpu ⟨n, data2⟩ sendRet2
    ∧ (handle_client_body abi fpu locals1 ⟨n, data1⟩ sendRet1).1
      = (handle_client_body abi fpu locals2 ⟨n, data2⟩ sendRet2).1
    ∧ (handle_client_body abi fpu locals1 ⟨n, data1⟩ sendRet1).2.2
      = (handle_client_body abi fpu locals2 ⟨n, data2⟩ sendRet2).2.2
    ∧ (main_body abi fpu locals1 ⟨n, data1⟩ sendRet1).1
      = (main_body abi fpu locals2 ⟨n, data2⟩ sendRet2).1
    ∧ (main_body abi fpu locals1 ⟨n, data1⟩ sendRet1).2.2
      = (main_body abi fpu locals2 ⟨n, data2⟩ sendRet2).2.2 := by
  have t : handle_client_iter abi fpu ⟨n, data1⟩ sendRet1
      = handle_client_iter abi fpu ⟨n, data2⟩ sendRet2 := by
    rw [tcp_iter_off_size abi fpu ⟨n, data1⟩ sendRet1 hn,
      tcp_iter_off_size abi fpu ⟨n, data2⟩ sendRet2 hn]
  have u : main_iter abi fpu ⟨n, data1⟩ sendRet1 = main_iter abi fpu ⟨n, data2⟩ sendRet2 := by
    rw [udp_iter_off_size abi fpu ⟨n, data1⟩ sendRet1 hn,
      udp_iter_off_size abi fpu ⟨n, data2⟩ sendRet2 hn]
  refine ⟨t, u, ?_, ?_, ?_, ?_⟩
  · rw [(tcp_body_eq_iter abi fpu locals1 ⟨n, data1⟩ sendRet1).1,
      (tcp_body_eq_iter abi fpu locals2 ⟨n, data2⟩ sendRet2).1, t]
  · rw [(tcp_body_eq_iter abi fpu locals1 ⟨n, data1⟩ sendRet1).2,
      (tcp_body_eq_iter abi fpu locals2 ⟨n, data2⟩ sendRet2).2, t]
  · rw [(udp_body_eq_iter abi fpu locals1 ⟨n, data1⟩ sendRet1).1,
      (udp_body_eq_iter abi fpu locals2 ⟨n, data2⟩ sendRet2).1, u]
  · rw [(udp_body_eq_iter abi fpu locals1 ⟨n, data1⟩ sendRet1).2,
      (udp_body_eq_iter abi fpu locals2 ⟨n, data2⟩ sendRet2).2, u]

/-- Witness for C11: 20 bytes received on x86-64, once the start of the
request Add 2.0 3.0 and once twenty bytes 0xFF. -/
theorem wrong_size_ignores_content_witness :
    handle_client_iter x86_64 ieee754 ⟨20, (fullRecv reqAdd).data.take 20⟩ 16
      = handle_client_iter x86_64 ieee754 ⟨20, List.replicate 20 0xFF⟩ (-1)
    ∧ main_iter x86_64 ieee754 ⟨20, (fullRecv reqAdd).data.take 20⟩ 16
      = main_iter x86_64 ieee754 ⟨20, List.replicate 20 0xFF⟩ (-1) :=
  ⟨(wrong_size_ignores_content x86_64 ieee754 20 ((fullRecv reqAdd).data.take 20)
      (List.replicate 20 0xFF) 16 (-1) ⟨[], ⟨0, d5⟩, 0⟩ ⟨[7], ⟨-1, d2⟩, 24⟩ (by decide)).1,
   (wrong_size_ignores_content x86_64 ieee754 20 ((fullRecv reqAdd).data.take 20)
      (List.replicate 20 0xFF) 16 (-1) ⟨[], ⟨0, d5⟩, 0⟩ ⟨[7], ⟨-1, d2⟩, 24⟩ (by decide)).2.1⟩

/-- Counterexample to C12: the `send` of the framing-error response fails
(returns -1) after a receive of 3 bytes on x86-64, and the loop does not end:
the next receive is served. -/
theorem failed_error_reply_counterexample :
    (handle_client_iter x86_64 ieee754 ⟨3, [1, 2, 3]⟩ (-1)).1 = .next
    ∧ (handle_client_iter x86_64 ieee754 ⟨3, [1, 2, 3]⟩ (-1)).2
      = [.log (.incomplete 24 3), .send ⟨-1, Double.zero⟩]
    ∧ handle_client x86_64 ieee754 [(⟨3, [1, 2, 3]⟩, -1), (fullRecv reqAdd, 16)]
      = [.log (.incomplete 24 3), .send ⟨-1, Double.zero⟩,
         .log (.received reqAdd), .call .add d2 d3, .send ⟨0, d5⟩, .log (.sent ⟨0, d5⟩)] := by
  decide

/-- C12, amended: an iteration of the loop of `handle_client` ends the loop
exactly when `recv` returns 0, when `recv` returns a negative value, or when
the request had the right size and the `send` of its response returns a
negative value; then nothing more is received. In every other case, a failing
`send` of the framing-error response included, the loop goes on with the next
receive. -/
theorem tcp_session_termination (abi : ABI) (fpu : FPU) (received : RecvResult)
    (sendRet : Int) (rest : List (RecvResult × Int)) (locals : Locals) :
    ((handle_client_iter abi fpu received sendRet).1 = .stop
      ↔ (received.ret = 0 ∨ received.ret < 0
          ∨ (received.ret = (sizeofRequest abi : Int) ∧ sendRet < 0)))
    ∧ ((handle_client_iter abi fpu received sendRet).1 = .next
      ↔ ¬ (received.ret = 0 ∨ received.ret < 0
          ∨ (received.ret = (sizeofRequest abi : Int) ∧ sendRet < 0)))
    ∧ (handle_client_body abi fpu locals received sendRet).1
        = (handle_client_iter abi fpu received sendRet).1
    ∧ handle_client abi fpu ((received, sendRet) :: rest)
        = (if received.ret = 0 ∨ received.ret < 0
              ∨ (received.ret = (sizeofRequest abi : Int) ∧ sendRet < 0)
           then (handle_client_iter abi fpu received sendRet).2
           else (handle_client_iter abi fpu received sendRet).2
                  ++ handle_client abi fpu rest) := by
  have hpos := sizeofRequest_pos abi
  have key : (handle_client_iter abi fpu received sendRet).1
      = (if received.ret = 0 ∨ received.ret < 0
            ∨ (received.ret = (sizeofRequest abi : Int) ∧ sendRet < 0)
         then Control.stop else Control.next) := by
    unfold handle_client_iter
    dsimp only
    by_cases hc : received.ret = 0 ∨ received.ret < 0
        ∨ (received.ret = (sizeofRequest abi : Int) ∧ sendRet < 0)
    · rw [if_pos hc]
      by_cases h1 : received.ret ≤ 0
      · rw [if_pos h1]
        by_cases h0 : received.ret = 0
        · rw [if_pos h0]
        · rw [if_neg h0]
      · rw [if_neg h1, if_neg (by omega), if_pos (by omega)]
    · rw [if_neg hc, if_neg (by omega)]
      by_cases h2 : received.ret ≠ (sizeofRequest abi : Int)
      · rw [if_pos h2]
      · rw [if_neg h2, if_neg (by omega)]
  refine ⟨?_, ?_, (tcp_body_eq_iter abi fpu locals received sendRet).1, ?_⟩
  · rw [key]
    split_ifs with h <;> simp [h]
  · rw [key]
    split_ifs with h <;> simp [h]
  · rw [handle_client]
    cases hit : handle_client_iter abi fpu received sendRet with
    | mk c events =>
      rw [hit] at key
      simp only at key
      split_ifs with h
      · rw [if_pos h] at key
        subst key
        rfl
      · rw [if_neg h] at key
        subst key
        rfl

/-- C13: every iteration of the loop of `main` of the UDP server goes on to
the next one, whatever `recvfrom` returns (failure or any size), whatever the
request holds (a zero divisor, an unknown operation) and whatever `sendto`
returns; so the loop serves every one of the outcomes it is given. -/
theorem udp_loop_never_stops (abi : ABI) (fpu : FPU) (received : RecvResult)
    (sendRet : Int) (locals : Locals) (before after : List (RecvResult × Int)) :
    (main_iter abi fpu received sendRet).1 = .next
    ∧ (main_body abi fpu locals received sendRet).1 = .next
    ∧ main_loop abi fpu ((received, sendRet) :: after)
      = (main_iter abi fpu received sendRet).2 ++ main_loop abi fpu after
    ∧ main_loop abi fpu (before ++ after)
      = main_loop abi fpu before ++ main_loop abi fpu after := by
  have key : ∀ (r : RecvResult) (s : Int), (main_iter abi fpu r s).1 = .next := by
    intro r s
    unfold main_iter
    dsimp only
    by_cases h1 : r.ret < 0
    · rw [if_pos h1]
    · rw [if_neg h1]
      by_cases h2 : r.ret ≠ (sizeofRequest abi : Int)
      · rw [if_pos h2]
      · rw [if_neg h2]
        by_cases h3 : s < 0
        · rw [if_pos h3]
        · rw [if_neg h3]
  have step : ∀ (r : RecvResult) (s : Int) (l : List (RecvResult × Int)),
      main_loop abi fpu ((r, s) :: l) = (main_iter abi fpu r s).2 ++ main_loop abi fpu l := by
    intro r s l
    rw [main_loop]
    have hk := key r s
    cases hit : main_iter abi fpu r s with
    | mk c events =>
      rw [hit] at hk
      simp only at hk
      subst hk
      rfl
  refine ⟨key received sendRet, ?_, step received sendRet after, ?_⟩
  · rw [(udp_body_eq_iter abi fpu locals received sendRet).1]
    exact key received sendRet
  · induction before with
    | nil => simp [main_loop]
    | cons x xs ih =>
      obtain ⟨r, s⟩ := x
      rw [List.cons_append, step, step, ih, List.append_assoc]

/-! ## The clients -/

/-- C14 fails on the code: the UDP client passes `&server_addr` to `recvfrom`
as the place for the source address, so after an exchange whose reply came
from 10.0.0.9:7777 the variable holds that address, and the next request is
sent there and not to the address 127.0.0.1:6001 prepared at startup. -/
theorem udp_client_destination_follows_reply :
    serverAddr ≠ otherAddr
    ∧ (calc_udp_client.main_iter x86_64 serverAddr inputAdd 24 (replyFrom otherAddr)).2.1
      = otherAddr
    ∧ destinations (calc_udp_client.main_loop x86_64 serverAddr
        [(inputAdd, 24, replyFrom otherAddr), (inputAdd, 24, replyFrom otherAddr)])
      = [serverAddr, otherAddr] := by
  decide

/-- Counterexample to C15: with the menu choice 1 and a first operand that is
not a number, neither client sends anything, although the choice is between 1
and 4. -/
theorem valid_choice_nothing_sent_counterexample :
    ((1 : Int) ≤ 1 ∧ (1 : Int) ≤ 4)
    ∧ sentRequests (coi_client.main_iter x86_64 ⟨some 1, none, some d3⟩ 24
        ⟨16, responseBytes x86_64 (fun _ => 0) ⟨0, d5⟩⟩).2 = []
    ∧ sentRequests (calc_udp_client.main_iter x86_64 serverAddr ⟨some 1, none, some d3⟩ 24
        (replyFrom serverAddr)).2.2 = [] := by
  decide

/-- What a pass of the TCP client transmits. -/
theorem tcp_client_sent (abi : ABI) (input : MenuInput) (sendRet : Int)
    (received : RecvResult) :
    sentRequests (coi_client.main_iter abi input sendRet received).2
      = (match input.choice, input.num1, input.num2 with
         | some choice, some a, some b =>
           if 1 ≤ choice ∧ choice ≤ 4 then [⟨choice, a, b⟩] else []
         | _, _, _ => []) := by
  obtain ⟨choice, num1, num2⟩ := input
  unfold coi_client.main_iter
  cases choice with
  | none => rfl
  | some c =>
    dsimp only
    by_cases h0 : c = 0
    · subst h0
      cases num1 <;> cases num2 <;> simp [sentRequests]
    · rw [if_neg h0]
      by_cases hr : c ≥ ADD ∧ c ≤ DIVIDE
      · rw [if_pos hr]
        have hr2 : 1 ≤ c ∧ c ≤ 4 := hr
        cases num1 with
        | none => cases num2 <;> simp [sentRequests]
        | some a =>
          cases num2 with
          | none => simp [sentRequests]
          | some b =>
            dsimp only
            rw [if_pos hr2]
            split_ifs <;> simp [sentRequests]
      · rw [if_neg hr]
        have hr2 : ¬ (1 ≤ c ∧ c ≤ 4) := hr
        cases num1 <;> cases num2 <;> simp [sentRequests, hr2]

/-- What a pass of the UDP client transmits. -/
theorem udp_client_sent (abi : ABI) (server_addr : SockAddr) (input : MenuInput)
    (sendRet : Int) (received : RecvFromResult) :
    sentRequests (calc_udp_client.main_iter abi server_addr input sendRet received).2.2
      = (match input.choice, input.num1, input.num2 with
         | some choice, some a, some b =>
           if 1 ≤ choice ∧ choice ≤ 4 then [⟨choice, a, b⟩] else []
         | _, _, _ => []) := by
  obtain ⟨choice, num1, num2⟩ := input
  unfold calc_udp_client.main_iter
  cases choice with
  | none => rfl
  | some c =>
    dsimp only
    by_cases h0 : c = 0
    · subst h0
      cases num1 <;> cases num2 <;> simp [sentRequests]
    · rw [if_neg h0]
      by_cases hr : c ≥ ADD ∧ c ≤ DIVIDE
      · rw [if_pos hr]
        have hr2 : 1 ≤ c ∧ c ≤ 4 := hr
        cases num1 with
        | none => cases num2 <;> simp [sentRequests]
        | some a =>
          cases num2 with
          | none => simp [sentRequests]
          | some b =>
            dsimp only
            rw [if_pos hr2]
            split_ifs <;> simp [sentRequests]
      · rw [if_neg hr]
        have hr2 : ¬ (1 ≤ c ∧ c ≤ 4) := hr
        cases num1 <;> cases num2 <;> simp [sentRequests, hr2]

/-- C15, amended: in a pass through the menu, the TCP client and the UDP
client send a request exactly when the choice is an integer between 1 and 4
and both operands are entered as numbers; the request sent then holds that
choice as its operation and the two numbers as operands. For the choice 0, for
every other choice and whenever an entry is not a number, nothing is sent. So
every request sent has an operation between 1 and 4, equal to the choice. -/
theorem clients_send_valid_operations (abi : ABI) (server_addr : SockAddr)
    (input : MenuInput) (sendRet : Int) (received : RecvResult)
    (datagram : RecvFromResult) :
    (∀ choice a b, input = ⟨some choice, some a, some b⟩ → 1 ≤ choice → choice ≤ 4 →
      sentRequests (coi_client.main_iter abi input sendRet received).2 = [⟨choice, a, b⟩]
      ∧ sentRequests (calc_udp_client.main_iter abi server_addr input sendRet datagram).2.2
          = [⟨choice, a, b⟩])
    ∧ ((∀ choice, input.choice = some choice → choice < 1 ∨ 4 < choice) →
      sentRequests (coi_client.main_iter abi input sendRet received).2 = []
      ∧ sentRequests (calc_udp_client.main_iter abi server_addr input sendRet datagram).2.2
          = [])
    ∧ (input.num1 = none ∨ input.num2 = none →
      sentRequests (coi_client.main_iter abi input sendRet received).2 = []
      ∧ sentRequests (calc_udp_client.main_iter abi server_addr input sendRet datagram).2.2
          = [])
    ∧ (∀ r, (r ∈ sentRequests (coi_client.main_iter abi input sendRet received).2
        ∨ r ∈ sentRequests
              (calc_udp_client.main_iter abi server_addr input sendRet datagram).2.2) →
      1 ≤ r.operation ∧ r.operation ≤ 4 ∧ input.choice = some r.operation) := by
  rw [tcp_client_sent, udp_client_sent]
  obtain ⟨choice, num1, num2⟩ := input
  refine ⟨?_, ?_, ?_, ?_⟩
  · intro c a b h h1 h4
    simp only [MenuInput.mk.injEq] at h
    obtain ⟨hc, ha, hb⟩ := h
    subst hc; subst ha; subst hb
    simp [h1, h4]
  · intro h
    cases choice with
    | none => simp
    | some c =>
      have hc := h c rfl
      have hn : ¬ (1 ≤ c ∧ c ≤ 4) := by omega
      cases num1 <;> cases num2 <;> simp [hn]
  · intro h
    dsimp only at h
    rcases h with h | h
    · subst h
      cases choice <;> simp
    · subst h
      cases choice <;> cases num1 <;> simp
  · intro r hr
    simp only [or_self] at hr
    cases choice with
    | none => simp at hr
    | some c =>
      cases num1 with
      | none => simp at hr
      | some a =>
        cases num2 with
        | none => simp at hr
        | some b =>
          dsimp only at hr
          by_cases hc : 1 ≤ c ∧ c ≤ 4
          · rw [if_pos hc] at hr
            simp at hr
            subst hr
            exact ⟨hc.1, hc.2, rfl⟩
          · rw [if_neg hc] at hr
            simp at hr

/-- Witness for C15, amended: the entries "1", "2.0", "3.0" make both clients
send the request Add 2.0 3.0; the choice 0 and the choice 5 make them send
nothing. -/
theorem clients_send_valid_operations_witness :
    (sentRequests (coi_client.main_iter x86_64 inputAdd 24
        ⟨16, (replyFrom serverAddr).data⟩).2 = [reqAdd]
      ∧ sentRequests (calc_udp_client.main_iter x86_64 serverAddr inputAdd 24
          (replyFrom serverAddr)).2.2 = [reqAdd])
    ∧ (sentRequests (coi_client.main_iter x86_64 ⟨some 0, some d2, some d3⟩ 24
        ⟨16, (replyFrom serverAddr).data⟩).2 = []
      ∧ sentRequests (calc_udp_client.main_iter x86_64 serverAddr ⟨some 0, some d2, some d3⟩
          24 (replyFrom serverAddr)).2.2 = [])
    ∧ (sentRequests (coi_client.main_iter x86_64 ⟨some 5, some d2, some d3⟩ 24
        ⟨16, (replyFrom serverAddr).data⟩).2 = []
      ∧ sentRequests (calc_udp_client.main_iter x86_64 serverAddr ⟨some 5, some d2, some d3⟩
          24 (replyFrom serverAddr)).2.2 = []) :=
  ⟨(clients_send_valid_operations x86_64 serverAddr inputAdd 24
      ⟨16, (replyFrom serverAddr).data⟩ (replyFrom serverAddr)).1 1 d2 d3 rfl
      (by decide) (by decide),
   (clients_send_valid_operations x86_64 serverAddr ⟨some 0, some d2, some d3⟩ 24
      ⟨16, (replyFrom serverAddr).data⟩ (replyFrom serverAddr)).2.1
      (fun c hc => by simp at hc; omega),
   (clients_send_valid_operations x86_64 serverAddr ⟨some 5, some d2, some d3⟩ 24
      ⟨16, (replyFrom serverAddr).data⟩ (replyFrom serverAddr)).2.1
      (fun c hc => by simp at hc; omega)⟩

/-! ## Independence of the exchanges -/

/-- The responses of an iteration of the TCP server depend on the byte count
and, for a full-size receive, on the request read from the buffer. -/
theorem tcp_replies_congr (abi : ABI) (fpu : FPU) (m1 m2 : RecvResult) (s1 s2 : Int)
    (hcount : m1.ret = m2.ret)
    (hfields : m1.ret = (sizeofRequest abi : Int)
      → receivedRequest abi m1 = receivedRequest abi m2) :
    coi_server.replies abi fpu m1 s1 = coi_server.replies abi fpu m2 s2 := by
  by_cases h : m1.ret = (sizeofRequest abi : Int)
  · rw [tcp_replies_sized abi fpu m1 s1 h, tcp_replies_sized abi fpu m2 s2 (hcount ▸ h),
      hfields h]
  · unfold coi_server.replies
    rw [tcp_iter_off_size abi fpu m1 s1 h, tcp_iter_off_size abi fpu m2 s2 (hcount ▸ h),
      hcount]

/-- The responses of an iteration of the UDP server depend on the byte count
and, for a full-size receive, on the request read from the buffer. -/
theorem udp_replies_congr (abi : ABI) (fpu : FPU) (m1 m2 : RecvResult) (s1 s2 : Int)
    (hcount : m1.ret = m2.ret)
    (hfields : m1.ret = (sizeofRequest abi : Int)
      → receivedRequest abi m1 = receivedRequest abi m2) :
    calc_udp_server.replies abi fpu m1 s1 = calc_udp_server.replies abi fpu m2 s2 := by
  by_cases h : m1.ret = (sizeofRequest abi : Int)
  · rw [udp_replies_sized abi fpu m1 s1 h, udp_replies_sized abi fpu m2 s2 (hcount ▸ h),
      hfields h]
  · unfold calc_udp_server.replies
    rw [udp_iter_off_size abi fpu m1 s1 h, udp_iter_off_size abi fpu m2 s2 (hcount ▸ h),
      hcount]

/-- A call of `divide` among the events of the TCP iteration comes from its
switch. -/
theorem tcp_iter_call (abi : ABI) (fpu : FPU) (received : RecvResult) (sendRet : Int)
    (fn : ArithFn) (a b : Double)
    (h : Event.call fn a b ∈ (handle_client_iter abi fpu received sendRet).2) :
    Event.call fn a b ∈ (handle_client_switch fpu (receivedRequest abi received)).2 := by
  unfold handle_client_iter at h
  dsimp only at h
  split_ifs at h <;> first | (simp at h; done) | simpa using h

/-- A call of `divide` among the events of the UDP iteration comes from its
switch. -/
theorem udp_iter_call (abi : ABI) (fpu : FPU) (received : RecvResult) (sendRet : Int)
    (fn : ArithFn) (a b : Double)
    (h : Event.call fn a b ∈ (main_iter abi fpu received sendRet).2) :
    Event.call fn a b ∈ (main_switch fpu (receivedRequest abi received)).2 := by
  unfold main_iter at h
  dsimp only at h
  split_ifs at h <;> first | (simp at h; done) | simpa using h

/-- The switch calls `divide` only with a divisor that does not compare equal
to `0.0`. -/
theorem switch_divide_call (fpu : FPU) (request : CalculatorRequest) (a b : Double)
    (h : Event.call .divide a b ∈ (main_switch fpu request).2) :
    Double.eq b Double.zero = false := by
  unfold main_switch at h
  dsimp only at h
  split_ifs at h with h1 h2 h3 h4 h5 <;> simp at h
  obtain ⟨_, hb⟩ := h
  subst hb
  simpa using h5

/-- C16: the responses a server transmits for a received message are the same
whatever its local variables hold, hence whatever was handled before (any two
histories of receives, from any starting values of the variables): they depend
only on the byte count of the message and, when the count is
`sizeof(CalculatorRequest)`, on the operation, num1 and num2 read from it; and
they do not depend on what `send`/`sendto` returns. -/
theorem no_residual_state (abi : ABI) (fpu : FPU) (locals1 locals2 : Locals)
    (history1 history2 : List (RecvResult × Int)) (m1 m2 : RecvResult) (s1 s2 : Int)
    (hcount : m1.ret = m2.ret)
    (hfields : m1.ret = (sizeofRequest abi : Int)
      → receivedRequest abi m1 = receivedRequest abi m2) :
    sentResponses (handle_client_body abi fpu
        (coi_server.localsAfter abi fpu locals1 history1) m1 s1).2.2
      = sentResponses (handle_client_body abi fpu
          (coi_server.localsAfter abi fpu locals2 history2) m2 s2).2.2
    ∧ sentResponses (main_body abi fpu
        (calc_udp_server.localsAfter abi fpu locals1 history1) m1 s1).2.2
      = sentResponses (main_body abi fpu
          (calc_udp_server.localsAfter abi fpu locals2 history2) m2 s2).2.2
    ∧ sentResponses (handle_client_body abi fpu
        (coi_server.localsAfter abi fpu locals1 history1) m1 s1).2.2
      = coi_server.replies abi fpu m1 s1
    ∧ sentResponses (main_body abi fpu
        (calc_udp_server.localsAfter abi fpu locals1 history1) m1 s1).2.2
      = calc_udp_server.replies abi fpu m1 s1 := by
  have t := tcp_replies_congr abi fpu m1 m2 s1 s2 hcount hfields
  have u := udp_replies_congr abi fpu m1 m2 s1 s2 hcount hfields
  unfold coi_server.replies at t
  unfold calc_udp_server.replies at u
  refine ⟨?_, ?_, ?_, ?_⟩
  · rw [(tcp_body_eq_iter abi fpu _ m1 s1).2, (tcp_body_eq_iter abi fpu _ m2 s2).2, t]
  · rw [(udp_body_eq_iter abi fpu _ m1 s1).2, (udp_body_eq_iter abi fpu _ m2 s2).2, u]
  · rw [(tcp_body_eq_iter abi fpu _ m1 s1).2]; rfl
  · rw [(udp_body_eq_iter abi fpu _ m1 s1).2]; rfl

/-- Witness for C16: the request Add 2.0 3.0 received on x86-64 after no
history and after a history of a division by zero and a framing error, from
different values of the local variables. -/
theorem no_residual_state_witness :
    sentResponses (handle_client_body x86_64 ieee754
        (coi_server.localsAfter x86_64 ieee754 ⟨[], ⟨7, d10⟩, 5⟩ []) (fullRecv reqAdd) 16).2.2
      = sentResponses (handle_client_body x86_64 ieee754
          (coi_server.localsAfter x86_64 ieee754 ⟨[1], ⟨-1, d2⟩, 0⟩
            [(fullRecv ⟨DIVIDE, d10, Double.zero⟩, 16), (⟨3, [1, 2, 3]⟩, -1)])
          (fullRecv reqAdd) (-1)).2.2
    ∧ sentResponses (handle_client_body x86_64 ieee754
        (coi_server.localsAfter x86_64 ieee754 ⟨[], ⟨7, d10⟩, 5⟩ []) (fullRecv reqAdd) 16).2.2
      = [⟨0, d5⟩] :=
  ⟨(no_residual_state x86_64 ieee754 ⟨[], ⟨7, d10⟩, 5⟩ ⟨[1], ⟨-1, d2⟩, 0⟩ []
      [(fullRecv ⟨DIVIDE, d10, Double.zero⟩, 16), (⟨3, [1, 2, 3]⟩, -1)]
      (fullRecv reqAdd) (fullRecv reqAdd) 16 (-1) rfl (fun _ => rfl)).1,
   by decide⟩

/-- C17: whenever an iteration of either server (or the switch of either
server, on any request) calls `divide(num1, num2)`, the divisor does not
compare equal to `0.0`, so the guard inside `divide` is false and the call
returns the machine quotient `num1 / num2`, not through the fallback branch. -/
theorem divide_sentinel_unreachable (abi : ABI) (fpu : FPU) (received : RecvResult)
    (sendRet : Int) (locals : Locals) (request : CalculatorRequest) (num1 num2 : Double)
    (h : Event.call .divide num1 num2 ∈ (handle_client_iter abi fpu received sendRet).2
      ∨ Event.call .divide num1 num2 ∈ (main_iter abi fpu received sendRet).2
      ∨ Event.call .divide num1 num2 ∈ (handle_client_body abi fpu locals received sendRet).2.2
      ∨ Event.call .divide num1 num2 ∈ (main_body abi fpu locals received sendRet).2.2
      ∨ Event.call .divide num1 num2 ∈ (handle_client_switch fpu request).2
      ∨ Event.call .divide num1 num2 ∈ (main_switch fpu request).2) :
    Double.eq num2 Double.zero = false
    ∧ divide fpu num1 num2 = fpu.fdiv num1 num2 := by
  have hz : Double.eq num2 Double.zero = false := by
    rcases h with h | h | h | h | h | h
    · have h2 := tcp_iter_call abi fpu received sendRet _ _ _ h
      rw [tcp_switch_eq_udp_switch] at h2
      exact switch_divide_call fpu _ _ _ h2
    · exact switch_divide_call fpu _ _ _ (udp_iter_call abi fpu received sendRet _ _ _ h)
    · rw [(tcp_body_eq_iter abi fpu locals received sendRet).2] at h
      have h2 := tcp_iter_call abi fpu received sendRet _ _ _ h
      rw [tcp_switch_eq_udp_switch] at h2
      exact switch_divide_call fpu _ _ _ h2
    · rw [(udp_body_eq_iter abi fpu locals received sendRet).2] at h
      exact switch_divide_call fpu _ _ _ (udp_iter_call abi fpu received sendRet _ _ _ h)
    · rw [tcp_switch_eq_udp_switch] at h
      exact switch_divide_call fpu _ _ _ h
    · exact switch_divide_call fpu _ _ _ h
  refine ⟨hz, ?_⟩
  unfold divide
  rw [hz]
  rfl

/-- Witness for C17: the request Divide 10.0 2.0 received in full by the TCP
server on x86-64 leads to the call `divide(10.0, 2.0)`, which returns 5.0. -/
theorem divide_sentinel_unreachable_witness :
    Event.call .divide d10 d2
      ∈ (handle_client_iter x86_64 ieee754 (fullRecv ⟨DIVIDE, d10, d2⟩) 16).2
    ∧ divide ieee754 d10 d2 = d5
    ∧ Double.eq d2 Double.zero = false
    ∧ divide ieee754 d10 d2 = ieee754.fdiv d10 d2 :=
  ⟨by decide, by decide,
   divide_sentinel_unreachable x86_64 ieee754 (fullRecv ⟨DIVIDE, d10, d2⟩) 16
     ⟨[], ⟨0, d5⟩, 0⟩ ⟨DIVIDE, d10, d2⟩ d10 d2 (Or.inl (by decide))⟩

/-- C18: for every receive of `sizeof(CalculatorRequest)` bytes, the TCP
server and the UDP server transmit the same response, with the same status and
result, whatever their local variables held; and for every request (any
operation code, num1 and num2) their switches compute the same response with
the same calls into the arithmetic unit. -/
theorem servers_process_alike (abi : ABI) (fpu : FPU) (received : RecvResult)
    (sendRet1 sendRet2 : Int) (locals1 locals2 : Locals) (request : CalculatorRequest)
    (hsize : received.ret = (sizeofRequest abi : Int)) :
    coi_server.replies abi fpu received sendRet1
      = calc_udp_server.replies abi fpu received sendRet2
    ∧ sentResponses (handle_client_body abi fpu locals1 received sendRet1).2.2
      = sentResponses (main_body abi fpu locals2 received sendRet2).2.2
    ∧ handle_client_switch fpu request = main_switch fpu request
    ∧ (handle_client_switch fpu request).1.status = (main_switch fpu request).1.status
    ∧ (handle_client_switch fpu request).1.result = (main_switch fpu request).1.result
    ∧ handle_client_assign fpu request locals1.response
      = main_assign fpu request locals2.response := by
  have hr : coi_server.replies abi fpu received sendRet1
      = calc_udp_server.replies abi fpu received sendRet2 := by
    rw [tcp_replies_sized abi fpu received sendRet1 hsize,
      udp_replies_sized abi fpu received sendRet2 hsize, tcp_switch_eq_udp_switch]
  refine ⟨hr, ?_, tcp_switch_eq_udp_switch fpu request, ?_, ?_, ?_⟩
  · unfold coi_server.replies calc_udp_server.replies at hr
    rw [(tcp_body_eq_iter abi fpu locals1 received sendRet1).2,
      (udp_body_eq_iter abi fpu locals2 received sendRet2).2, hr]
  · rw [tcp_switch_eq_udp_switch]
  · rw [tcp_switch_eq_udp_switch]
  · rw [tcp_assign_eq_switch, udp_assign_eq_switch, tcp_switch_eq_udp_switch]

/-- Witness for C18: the request Divide 10.0 0.0 received in full on x86-64
is answered with (-1, 0.0) by both servers. -/
theorem servers_process_alike_witness :
    coi_server.replies x86_64 ieee754 (fullRecv ⟨DIVIDE, d10, Double.zero⟩) 16
      = calc_udp_server.replies x86_64 ieee754 (fullRecv ⟨DIVIDE, d10, Double.zero⟩) (-1)
    ∧ calc_udp_server.replies x86_64 ieee754 (fullRecv ⟨DIVIDE, d10, Double.zero⟩) (-1)
      = [⟨-1, Double.zero⟩] :=
  ⟨(servers_process_alike x86_64 ieee754 (fullRecv ⟨DIVIDE, d10, Double.zero⟩) 16 (-1)
      ⟨[], ⟨0, d5⟩, 0⟩ ⟨[1], ⟨-1, d2⟩, 3⟩ reqAdd (by decide)).1,
   by decide⟩

end Calc
